import Mathlib

/-!
Verification of the navmesh core (`src/unnamed/part_000`, class `Navmesh` with its
`Vertex` / `Edge` / `Face` / `NavmeshPoint` entities) against its specification.

Modelling conventions:
* JS floating-point geometry is modelled over exact rationals `ℚ` (real-number
  semantics of the formulas); machine floats are abstracted away.
* The geometric helpers imported from `math.js` (`project_on_plane`,
  `triangle_normal`, `get_barycentric_coordinates`, `barycentric_to_cartesian`,
  `project_on_line`, `clamp`) are not part of the sources under `src/`; they are
  modelled from the spec (each carries a `Modelled from the spec:` doc comment).
* JS objects used as ordered string-keyed tables are modelled as association
  lists in insertion order (`findA` / `aset`); object references become stable
  keys (vertex index for vertices, dedup hash key for edges and faces), with
  immutable vertex positions inlined where the source holds a `Vertex` reference
  (positions are never mutated after creation, so the snapshot is exact).
* The dedup hash `_hash a b c = "h" + round((a+b+c+log(a*b*c+1))*1e8)` is
  modelled by the exact pair `(a+b+..., a*b*...)`: the source value is a
  deterministic symmetric function of that pair, so equal pairs give equal
  source hashes; rounding in the source can only merge further keys.  For the
  two-argument (edge) case the pair determines the unordered vertex pair, which
  is all the algorithm relies on.
* The unbounded `while (changed)` walk of `Navmesh.move` is modelled with
  explicit fuel (`moveLoop`); `Navmesh.move` runs it with fuel
  `edges.length + 1`, and the termination theorem shows this fuel is never
  exhausted, so the fuelled function coincides with the source loop.
-/

/-- Exact 3-component vector over `ℚ`, modelling `THREE.Vector3`. -/
structure V3 where
  x : ℚ
  y : ℚ
  z : ℚ
deriving DecidableEq, Repr

def V3.add (a b : V3) : V3 := ⟨a.x + b.x, a.y + b.y, a.z + b.z⟩

def V3.sub (a b : V3) : V3 := ⟨a.x - b.x, a.y - b.y, a.z - b.z⟩

def V3.smul (t : ℚ) (a : V3) : V3 := ⟨t * a.x, t * a.y, t * a.z⟩

def V3.dot (a b : V3) : ℚ := a.x * b.x + a.y * b.y + a.z * b.z

def V3.cross (a b : V3) : V3 :=
  ⟨a.y * b.z - a.z * b.y, a.z * b.x - a.x * b.z, a.x * b.y - a.y * b.x⟩

/-- Squared Euclidean distance between two vectors (kept squared to stay in `ℚ`). -/
def distSq (a b : V3) : ℚ := V3.dot (V3.sub a b) (V3.sub a b)

/-- Modelled from the spec: `clamp(min, max, v)` from `math.js` (not under `src/`). -/
def clampq (lo hi v : ℚ) : ℚ := max lo (min hi v)

/-- Modelled from the spec: `triangle_normal` from `math.js` (not under `src/`);
"compute a triangle's normal ... triangle winding determines direction".  The
source normalizes to unit length; the model keeps the unnormalized cross
product, which has the same direction, and every use of the normal
(`project_on_plane`) is invariant under positive scaling of the normal. -/
def triangle_normal (a b c : V3) : V3 := V3.cross (V3.sub b a) (V3.sub c a)

/-- Modelled from the spec: `project_on_plane` from `math.js` (not under `src/`);
"project a point onto a plane ... along the face normal, using one face vertex
as the plane origin".  Orthogonal projection of `p` onto the plane through
`origin` with normal `n`; written with the `n·n` denominator so it agrees with
the source for a normal of any positive length.  (For a degenerate zero normal
`ℚ` division by zero yields `p` unchanged; degenerate faces are outside every
claim.) -/
def project_on_plane (p origin n : V3) : V3 :=
  V3.sub p (V3.smul (V3.dot (V3.sub p origin) n / V3.dot n n) n)

/-- Modelled from the spec: `get_barycentric_coordinates` from `math.js` (not
under `src/`); glossary: "a triple (u,v,w), u+v+w=1, expressing a point within a
triangle's plane as a weighted combination of its three vertices".  Standard
barycentric solve; the `x`/`y`/`z` components are the weights of `a`/`b`/`c`
(the source pairs `x↔pa`, `y↔pb`, `z↔pc`).  Zero-area triangles (denominator 0)
are outside every claim. -/
def get_barycentric_coordinates (a b c p : V3) : V3 :=
  let v0 := V3.sub b a
  let v1 := V3.sub c a
  let v2 := V3.sub p a
  let d00 := V3.dot v0 v0
  let d01 := V3.dot v0 v1
  let d11 := V3.dot v1 v1
  let d20 := V3.dot v2 v0
  let d21 := V3.dot v2 v1
  let denom := d00 * d11 - d01 * d01
  let v := (d11 * d20 - d01 * d21) / denom
  let w := (d00 * d21 - d01 * d20) / denom
  ⟨1 - v - w, v, w⟩

/-- Modelled from the spec: `barycentric_to_cartesian` from `math.js` (not under
`src/`): the weighted combination `u·a + v·b + w·c`. -/
def barycentric_to_cartesian (a b c bc : V3) : V3 :=
  V3.add (V3.add (V3.smul bc.x a) (V3.smul bc.y b)) (V3.smul bc.z c)

/-- Modelled from the spec: `project_on_line` from `math.js` (not under `src/`);
§4.3 step 6: "clamp the working target position onto the edge's line segment
(nearest point on the segment, not the infinite line)".  Projection parameter
onto the infinite line, clamped to `[0,1]`.  (`a = b` gives parameter 0, i.e.
the point `a`.) -/
def project_on_line (a b p : V3) : V3 :=
  let d := V3.sub b a
  let t := V3.dot (V3.sub p a) d / V3.dot d d
  V3.add a (V3.smul (clampq 0 1 t) d)

/-- Key of the `edges` table: model of `_hash(id1, id2)` (with the default third
argument).  The pair `(id1+id2, id1*id2)` is exactly the data the source hash is
a symmetric function of, and it determines the unordered pair `{id1, id2}`. -/
abbrev EKey := ℕ × ℕ

/-- Key of the `faces` table: model of the three-argument `_hash(id1, id2, id3)`. -/
abbrev FKey := ℕ × ℕ

def key2 (a b : ℕ) : EKey := (a + b, a * b)

def key3 (a b c : ℕ) : FKey := (a + b + c, a * b * c)

/-- Model of `class Vertex`: a 3D position, keyed in the `verticies` table by its mesh
vertex index. -/
structure Vertex where
  pos : V3
deriving DecidableEq, Repr

/-- Model of `class Edge`: endpoint vertex indices `a`, `b` (the source holds `Vertex`
references; reference identity coincides with the vertex index because vertices
are deduplicated by index), the endpoint positions they carried at creation
(never mutated afterwards), and the up-to-two incident faces `left`/`right` in
discovery order.  The source also stores the Euclidean rest length
`a.pos.distanceTo(b.pos)`; no operation ever reads it, and it is kept squared
here to stay inside `ℚ`. -/
structure Edge where
  a : ℕ
  b : ℕ
  aPos : V3
  bPos : V3
  left : Option FKey
  right : Option FKey
  length_sq : ℚ
deriving DecidableEq, Repr

/-- Model of `Edge.has(v)`: whether vertex `v` is an endpoint of the edge. -/
def edgeHas (e : Edge) (v : ℕ) : Bool := e.a = v || e.b = v

/-- Errors of the navmesh model; `Edge.add(face)`: record an incident face, `left` first, then `right`; a
third incident face is the `Edge::add ... already has two faces` error
(`TopologyError`). -/
inductive NavErr
  | topologyError
  | typeError
deriving DecidableEq, Repr

def Edge.add (e : Edge) (f : FKey) : Except NavErr Edge :=
  match e.left with
  | none => .ok { e with left := some f }
  | some _ =>
    match e.right with
    | none => .ok { e with right := some f }
    | some _ => .error .topologyError

/-- Model of `Edge.other(face)`: the incident face on the other side, if any (`undefined`
when `face` is not incident, `null`/`undefined` results both fall into the
boundary branch of `move`). -/
def edgeOther (e : Edge) (f : FKey) : Option FKey :=
  if e.left = some f then e.right
  else if e.right = some f then e.left
  else none

/-- Model of `class Face`: vertex indices `pa`,`pb`,`pc` with their (immutable) positions
inlined, the three edge keys `ea`,`eb`,`ec` (edges `pa-pb`, `pb-pc`, `pc-pa`),
and the normal computed once at construction. -/
structure Face where
  pa : ℕ
  pb : ℕ
  pc : ℕ
  paPos : V3
  pbPos : V3
  pcPos : V3
  ea : EKey
  eb : EKey
  ec : EKey
  normal : V3
deriving DecidableEq, Repr

/-- Model of `class NavmeshPoint`: a tracked point bound to one face. -/
structure NavmeshPoint where
  id : String
  worldpos : V3
  bcpos : V3
  face : FKey
deriving DecidableEq, Repr

/-- Model of `class Navmesh`: the four entity tables (JS objects, modelled as
association lists in insertion order) and the id counter `guids`. -/
structure Navmesh where
  verticies : List (ℕ × Vertex)
  edges : List (EKey × Edge)
  faces : List (FKey × Face)
  points : List (String × NavmeshPoint)
  guids : ℕ
deriving DecidableEq, Repr

def Navmesh.init : Navmesh := ⟨[], [], [], [], 0⟩

/-- First-match association-list lookup (JS property read). -/
def findA {κ α : Type} [DecidableEq κ] : List (κ × α) → κ → Option α
  | [], _ => none
  | (k, v) :: rest, k2 => if k = k2 then some v else findA rest k2

/-- JS property assignment: overwrite in place if the key exists, append
otherwise (JS objects keep insertion order for string keys). -/
def aset {κ α : Type} [DecidableEq κ] : List (κ × α) → κ → α → List (κ × α)
  | [], k, v => [(k, v)]
  | (k1, v1) :: rest, k, v =>
    if k1 = k then (k1, v) :: rest else (k1, v1) :: aset rest k v

def findVert (m : Navmesh) (k : ℕ) : Option Vertex := findA m.verticies k

def findEdge (m : Navmesh) (k : EKey) : Option Edge := findA m.edges k

def findFace (m : Navmesh) (k : FKey) : Option Face := findA m.faces k

/-- Model of `this.verticies[pid] ?? (this.verticies[pid] = new Vertex(...))`: reuse the
vertex created by an earlier triangle, else create it from the flat position
array (`p[pid*3 ..]`).  Out-of-range reads are `undefined` in JS and excluded by
well-formed input; the model reads 0. -/
def ensureVertex (m : Navmesh) (pid : ℕ) (positions : List ℚ) : Navmesh × V3 :=
  match findVert m pid with
  | some v => (m, v.pos)
  | none =>
    let pos : V3 := ⟨positions.getD (3 * pid) 0, positions.getD (3 * pid + 1) 0,
      positions.getD (3 * pid + 2) 0⟩
    ({ m with verticies := aset m.verticies pid ⟨pos⟩ }, pos)

/-- Model of `this.edges[hash] ?? (this.edges[hash] = new Edge(hash, va, vb))`. -/
def ensureEdge (m : Navmesh) (k : EKey) (va vb : ℕ) (pa pb : V3) : Navmesh :=
  match findEdge m k with
  | some _ => m
  | none =>
    { m with edges := aset m.edges k ⟨va, vb, pa, pb, none, none, distSq pa pb⟩ }

/-- One `edge.add(face)` call through the table (the table entry is the single
mutable edge object).  `typeError` models the impossible dangling-key read. -/
def addFaceToEdge (m : Navmesh) (k : EKey) (f : FKey) : Except (NavErr × Navmesh) Navmesh :=
  match findEdge m k with
  | none => .error (.typeError, m)
  | some e =>
    match e.add f with
    | .ok e2 => .ok { m with edges := aset m.edges k e2 }
    | .error err => .error (err, m)

/-- One iteration of the `build` loop: deduplicate the three vertices and
edges, then construct the face — the `Face` constructor wires itself onto its
three edges (`ea.add(this); eb.add(this); ec.add(this)`), which can throw, in
which case the face is not stored but all earlier mutations persist. -/
def processTri (m0 : Navmesh) (pid1 pid2 pid3 : ℕ) (positions : List ℚ) :
    Except (NavErr × Navmesh) Navmesh :=
  let r1 := ensureVertex m0 pid1 positions
  let r2 := ensureVertex r1.1 pid2 positions
  let r3 := ensureVertex r2.1 pid3 positions
  let p1 := r1.2
  let p2 := r2.2
  let p3 := r3.2
  let h1 := key2 (pid1 * 3) (pid2 * 3)
  let h2 := key2 (pid2 * 3) (pid3 * 3)
  let h3 := key2 (pid3 * 3) (pid1 * 3)
  let m4 := ensureEdge r3.1 h1 pid1 pid2 p1 p2
  let m5 := ensureEdge m4 h2 pid2 pid3 p2 p3
  let m6 := ensureEdge m5 h3 pid3 pid1 p3 p1
  let hf := key3 (pid1 * 3) (pid2 * 3) (pid3 * 3)
  match addFaceToEdge m6 h1 hf with
  | .error e => .error e
  | .ok m7 =>
    match addFaceToEdge m7 h2 hf with
    | .error e => .error e
    | .ok m8 =>
      match addFaceToEdge m8 h3 hf with
      | .error e => .error e
      | .ok m9 =>
        let face : Face := ⟨pid1, pid2, pid3, p1, p2, p3, h1, h2, h3, triangle_normal p1 p2 p3⟩
        .ok { m9 with faces := aset m9.faces hf face }

/-- The `build` loop over the flat index array, three indices per triangle.  On
a thrown `TopologyError` the partially mutated state is carried in the error
(the source mutates `this` in place). -/
def buildLoop (m : Navmesh) : List ℕ → List ℚ → Except (NavErr × Navmesh) Navmesh
  | pid1 :: pid2 :: pid3 :: rest, positions =>
    match processTri m pid1 pid2 pid3 positions with
    | .ok m2 => buildLoop m2 rest positions
    | .error e => .error e
  | _, _ => .ok m

/-- Model of `Navmesh.build(mesh)` on an indexed triangle list. -/
def Navmesh.build (m : Navmesh) (indices : List ℕ) (positions : List ℚ) :
    Except (NavErr × Navmesh) Navmesh :=
  buildLoop m indices positions

/-- Whether a face accepts a query position: all three barycentric components of
the plane-projected position are `≥ 0` (`bcpos.x >= 0 && bcpos.y >= 0 &&
bcpos.z >= 0`). -/
def faceAccepts (f : Face) (pos : V3) : Bool :=
  let pp := project_on_plane pos f.paPos f.normal
  let bc := get_barycentric_coordinates f.paPos f.pbPos f.pcPos pp
  decide (0 ≤ bc.x) && decide (0 ≤ bc.y) && decide (0 ≤ bc.z)

/-- The `register` scan over the faces table in insertion order: project onto
each face's plane, accept the first face whose barycentric components are all
`≥ 0`, returning the new point (id `"p" + guids`). -/
def registerGo (g : ℕ) (pos : V3) : List (FKey × Face) → Option (String × NavmeshPoint)
  | [] => none
  | (k, f) :: rest =>
    let pp := project_on_plane pos f.paPos f.normal
    let bc := get_barycentric_coordinates f.paPos f.pbPos f.pcPos pp
    if 0 ≤ bc.x ∧ 0 ≤ bc.y ∧ 0 ≤ bc.z then
      some ("p" ++ toString g, ⟨"p" ++ toString g, pp, bc, k⟩)
    else registerGo g pos rest

/-- Model of `Navmesh.register(pos)`: returns the new point id (and the updated mesh
state) or `null`. -/
def Navmesh.register (m : Navmesh) (pos : V3) : Option String × Navmesh :=
  match registerGo m.guids pos m.faces with
  | some (id, pt) =>
    (some id, { m with points := aset m.points id pt, guids := m.guids + 1 })
  | none => (none, m)

/-- Model of `Face.find_opposide_edge(v)`: the first of `ea`, `eb`, `ec` that does not
have `v` as an endpoint, with its table key; `none` both for the source's
`undefined` result (every edge touches `v`) and for a dangling edge key
(impossible for faces built by `build`, where the face holds live references). -/
def find_opposide_edge (m : Navmesh) (f : Face) (v : ℕ) : Option (EKey × Edge) :=
  match findEdge m f.ea with
  | none => none
  | some ea =>
    if edgeHas ea v = false then some (f.ea, ea)
    else
      match findEdge m f.eb with
      | none => none
      | some eb =>
        if edgeHas eb v = false then some (f.eb, eb)
        else
          match findEdge m f.ec with
          | none => none
          | some ec =>
            if edgeHas ec v = false then some (f.ec, ec)
            else none

/-- Outcome of the `for (const k in ...)` scan over the barycentric components
inside one `move` iteration. -/
inductive ScanOut
  | settled (tested : List EKey)
  | cross (tested : List EKey) (f : FKey)
  | boundary (tested : List EKey) (e : Edge)
  | crash
deriving DecidableEq, Repr

/-- The component scan: for each `(component value, face vertex)` pair in order
`x↔pa`, `y↔pb`, `z↔pc`, a negative component selects the opposite edge; an edge
already in `tested_edges` is skipped (`continue`); otherwise the edge is
recorded and the scan stops (`break`) with either the neighbouring face
(`cross`) or the boundary edge (`boundary`).  `crash` models the source's
`TypeError` on `e.id` when `find_opposide_edge` returned `undefined`. -/
def scanGo (m : Navmesh) (fk : FKey) (f : Face) :
    List (ℚ × ℕ) → List EKey → ScanOut
  | [], tested => .settled tested
  | (q, v) :: rest, tested =>
    if q < 0 then
      match find_opposide_edge m f v with
      | none => .crash
      | some (k, e) =>
        if k ∈ tested then scanGo m fk f rest tested
        else
          match edgeOther e fk with
          | some f2 => .cross (tested ++ [k]) f2
          | none => .boundary (tested ++ [k]) e
    else scanGo m fk f rest tested

def walkScan (m : Navmesh) (fk : FKey) (f : Face) (bc : V3) (tested : List EKey) : ScanOut :=
  scanGo m fk f [(bc.x, f.pa), (bc.y, f.pb), (bc.z, f.pc)] tested

/-- Outcome of the fuelled `while (changed)` walk. -/
inductive LoopOut
  | ok (p : NavmeshPoint) (np : V3) (tested : List EKey)
  | deadlockError
  | outOfFuel
  | crash
deriving DecidableEq, Repr

/-- The `while (changed)` walk of `Navmesh.move`, with explicit fuel.  Each
iteration projects the working target `np` onto the current face's plane, takes
barycentric coordinates, and scans for a negative component: `cross` reassigns
the point's face and repeats with the original `np`; `boundary` clamps `np`
onto the edge segment and repeats on the same face; `settled` commits the
barycentric coordinates and the reconstructed world position.  The diagnostic
counter `deadlock` is initialized to 0 and never incremented by the source;
the `deadlock > 10` guard is checked at the end of every iteration. -/
def moveLoop (m : Navmesh) : ℕ → NavmeshPoint → V3 → List EKey → ℕ → LoopOut
  | 0, _, _, _, _ => .outOfFuel
  | fuel + 1, p, np, tested, deadlock =>
    match findFace m p.face with
    | none => .crash
    | some face =>
      let projected := project_on_plane np face.paPos face.normal
      let bc := get_barycentric_coordinates face.paPos face.pbPos face.pcPos projected
      match walkScan m p.face face bc tested with
      | .crash => .crash
      | .cross tested2 f2 =>
        if deadlock > 10 then .deadlockError
        else moveLoop m fuel { p with face := f2 } np tested2 deadlock
      | .boundary tested2 e =>
        if deadlock > 10 then .deadlockError
        else moveLoop m fuel p (project_on_line e.aPos e.bPos projected) tested2 deadlock
      | .settled tested2 =>
        if deadlock > 10 then .deadlockError
        else
          let w := barycentric_to_cartesian face.paPos face.pbPos face.pcPos bc
          .ok { p with bcpos := bc, worldpos := w } np tested2

/-- Result of `Navmesh.move`: the updated mesh state and the resolved position,
or one of the failure modes (`crash` covers the `TypeError`s the source throws
on an unknown point id or a dangling reference). -/
inductive MoveOut
  | ok (m : Navmesh) (res : V3)
  | deadlockError
  | outOfFuel
  | crash
deriving DecidableEq, Repr

/-- Model of `Navmesh.move(id, newpos)`.  The walk's fuel `edges.length + 1` is proven
sufficient (the walk never returns `outOfFuel`): every looping iteration
inserts a previously untested mesh edge into the per-call `tested_edges` set. -/
def Navmesh.move (m : Navmesh) (id : String) (newpos : V3) : MoveOut :=
  match findA m.points id with
  | none => .crash
  | some p =>
    match moveLoop m (m.edges.length + 1) p newpos [] 0 with
    | .ok p2 _ _ => .ok { m with points := aset m.points id p2 } p2.worldpos
    | .deadlockError => .deadlockError
    | .outOfFuel => .outOfFuel
    | .crash => .crash

/-- The sequence of `dispose()` calls `Face.dispose` makes on its edges — the
source calls `this.ea.dispose(); this.eb.dispose(); this.eb.dispose();`: `eb`
twice, `ec` never. -/
def Face.disposeEdgeCalls (f : Face) : List EKey := [f.ea, f.eb, f.eb]

/-- Model of `Navmesh.dispose()`: runs `Face.dispose` on every face (which nulls the
faces' and their `ea`/`eb` edges' references) and then empties the vertex, edge
and face tables.  The `points` table and `guids` are left untouched. -/
def Navmesh.dispose (m : Navmesh) : Navmesh :=
  { m with verticies := [], edges := [], faces := [] }

/-- Number of mesh edges not yet in the per-call `tested_edges` set: the walk's
termination measure. -/
def untestedCount (m : Navmesh) (tested : List EKey) : ℕ :=
  ((m.edges.map Prod.fst).filter (fun k => decide (k ∉ tested))).length

/-! ### Concrete instances

A two-face *fold* mesh (two triangles sharing the edge between vertices 0 and
1, not coplanar: face 2 is folded back over face 1), exhibiting the tested-edge
skip during `move`; and the flat unit-square *quad* mesh of spec §8 (vertices
`(0,0,0),(1,0,0),(1,1,0),(0,1,0)`, triangles `{0,1,2}` and `{0,2,3}`).  The
`...Lit` definitions are the literal table states these pipelines produce,
bridged by evaluation lemmas below. -/

def buildD (m : Navmesh) (idx : List ℕ) (pos : List ℚ) : Navmesh :=
  match Navmesh.build m idx pos with
  | .ok m2 => m2
  | .error e => e.2

def foldIdx : List ℕ := [0, 1, 2, 1, 0, 3]

def foldPos : List ℚ := [0, 0, 0, 2, 0, 0, 1, 1, 0, 1, 1, 2]

def foldBuilt : Navmesh := buildD Navmesh.init foldIdx foldPos

def foldReg : Navmesh := (Navmesh.register foldBuilt ⟨1, 1/3, 0⟩).2

def foldVerts : List (ℕ × Vertex) :=
  [(0, ⟨⟨0, 0, 0⟩⟩), (1, ⟨⟨2, 0, 0⟩⟩), (2, ⟨⟨1, 1, 0⟩⟩), (3, ⟨⟨1, 1, 2⟩⟩)]

def foldEdges : List (EKey × Edge) :=
  [((3, 0), ⟨0, 1, ⟨0, 0, 0⟩, ⟨2, 0, 0⟩, some (9, 0), some (12, 0), 4⟩),
   ((9, 18), ⟨1, 2, ⟨2, 0, 0⟩, ⟨1, 1, 0⟩, some (9, 0), none, 2⟩),
   ((6, 0), ⟨2, 0, ⟨1, 1, 0⟩, ⟨0, 0, 0⟩, some (9, 0), none, 2⟩),
   ((9, 0), ⟨0, 3, ⟨0, 0, 0⟩, ⟨1, 1, 2⟩, some (12, 0), none, 6⟩),
   ((12, 27), ⟨3, 1, ⟨1, 1, 2⟩, ⟨2, 0, 0⟩, some (12, 0), none, 6⟩)]

def foldFaces : List (FKey × Face) :=
  [((9, 0), ⟨0, 1, 2, ⟨0, 0, 0⟩, ⟨2, 0, 0⟩, ⟨1, 1, 0⟩, (3, 0), (9, 18), (6, 0), ⟨0, 0, 2⟩⟩),
   ((12, 0), ⟨1, 0, 3, ⟨2, 0, 0⟩, ⟨0, 0, 0⟩, ⟨1, 1, 2⟩, (3, 0), (9, 0), (12, 27), ⟨0, 4, -2⟩⟩)]

def foldPoint0 : NavmeshPoint := ⟨"p0", ⟨1, 1/3, 0⟩, ⟨1/3, 1/3, 1/3⟩, (9, 0)⟩

def foldRegLit : Navmesh := ⟨foldVerts, foldEdges, foldFaces, [("p0", foldPoint0)], 1⟩

def foldP1 : NavmeshPoint := ⟨"p0", ⟨1, -1/5, -2/5⟩, ⟨3/5, 3/5, -1/5⟩, (12, 0)⟩

def foldM1 : Navmesh := ⟨foldVerts, foldEdges, foldFaces, [("p0", foldP1)], 1⟩

def foldP2 : NavmeshPoint := ⟨"p0", ⟨1, -1, 0⟩, ⟨1, 1, -1⟩, (9, 0)⟩

def foldM2 : Navmesh := ⟨foldVerts, foldEdges, foldFaces, [("p0", foldP2)], 1⟩

def quadIdx : List ℕ := [0, 1, 2, 0, 2, 3]

def quadPos : List ℚ := [0, 0, 0, 1, 0, 0, 1, 1, 0, 0, 1, 0]

def quadBuilt : Navmesh := buildD Navmesh.init quadIdx quadPos

def quadReg : Navmesh := (Navmesh.register quadBuilt ⟨2/3, 1/3, 0⟩).2

def quadVerts : List (ℕ × Vertex) :=
  [(0, ⟨⟨0, 0, 0⟩⟩), (1, ⟨⟨1, 0, 0⟩⟩), (2, ⟨⟨1, 1, 0⟩⟩), (3, ⟨⟨0, 1, 0⟩⟩)]

def quadEdges : List (EKey × Edge) :=
  [((3, 0), ⟨0, 1, ⟨0, 0, 0⟩, ⟨1, 0, 0⟩, some (9, 0), none, 1⟩),
   ((9, 18), ⟨1, 2, ⟨1, 0, 0⟩, ⟨1, 1, 0⟩, some (9, 0), none, 1⟩),
   ((6, 0), ⟨2, 0, ⟨1, 1, 0⟩, ⟨0, 0, 0⟩, some (9, 0), some (15, 0), 2⟩),
   ((15, 54), ⟨2, 3, ⟨1, 1, 0⟩, ⟨0, 1, 0⟩, some (15, 0), none, 1⟩),
   ((9, 0), ⟨3, 0, ⟨0, 1, 0⟩, ⟨0, 0, 0⟩, some (15, 0), none, 1⟩)]

def quadF1 : Face :=
  ⟨0, 1, 2, ⟨0, 0, 0⟩, ⟨1, 0, 0⟩, ⟨1, 1, 0⟩, (3, 0), (9, 18), (6, 0), ⟨0, 0, 1⟩⟩

def quadF2 : Face :=
  ⟨0, 2, 3, ⟨0, 0, 0⟩, ⟨1, 1, 0⟩, ⟨0, 1, 0⟩, (6, 0), (15, 54), (9, 0), ⟨0, 0, 1⟩⟩

def quadFaces : List (FKey × Face) := [((9, 0), quadF1), ((15, 0), quadF2)]

def quadPoint0 : NavmeshPoint := ⟨"p0", ⟨2/3, 1/3, 0⟩, ⟨1/3, 1/3, 1/3⟩, (9, 0)⟩

def quadRegLit : Navmesh := ⟨quadVerts, quadEdges, quadFaces, [("p0", quadPoint0)], 1⟩

/-- How many times an edge key occurs among the edge hash keys of all triangles
of a flat index list (three indices per triangle, hashed from `id = index * 3`,
exactly as `build` consumes it). -/
def edgeKeyOcc : List ℕ → EKey → ℕ
  | a :: b :: c :: rest, k =>
    (if key2 (a * 3) (b * 3) = k then 1 else 0) +
      (if key2 (b * 3) (c * 3) = k then 1 else 0) +
      (if key2 (c * 3) (a * 3) = k then 1 else 0) + edgeKeyOcc rest k
  | _, _ => 0

/-- Number of filled incident-face slots of the edge stored at key `k` (0 when
no edge is stored there); structurally at most 2. -/
def slots (m : Navmesh) (k : EKey) : ℕ :=
  match findA m.edges k with
  | none => 0
  | some e => (if e.left.isSome then 1 else 0) + (if e.right.isSome then 1 else 0)

/-- Result-kind extractor for `build` outcomes. -/
def buildErrKind : Except (NavErr × Navmesh) Navmesh → Option NavErr
  | .error (e, _) => some e
  | .ok _ => none

/-- A non-manifold index list: three triangles all referencing the undirected
edge `{0, 1}`. -/
def badIdx : List ℕ := [0, 1, 2, 1, 0, 3, 0, 1, 4]

def badPos : List ℚ := [0, 0, 0, 1, 0, 0, 1, 1, 0, 1, -1, 0, 2, 2, 0]

/-- Two further triangles on the quad's bottom edge `{0, 1}` (already incident
to one face there), so the second of them makes that edge non-manifold. -/
def extIdx : List ℕ := [0, 1, 4, 1, 0, 5]

def extPos : List ℚ := [0, 0, 0, 1, 0, 0, 1, 1, 0, 0, 1, 0, 2, 0, 0, 3, 0, 0]

/-- The state carried by the error of `build quadRegLit extIdx extPos`. -/
def c5wState : Navmesh :=
  ⟨[(0, ⟨⟨0, 0, 0⟩⟩), (1, ⟨⟨1, 0, 0⟩⟩), (2, ⟨⟨1, 1, 0⟩⟩), (3, ⟨⟨0, 1, 0⟩⟩),
    (4, ⟨⟨2, 0, 0⟩⟩), (5, ⟨⟨3, 0, 0⟩⟩)],
   [((3, 0), ⟨0, 1, ⟨0, 0, 0⟩, ⟨1, 0, 0⟩, some (9, 0), some (15, 0), 1⟩),
    ((9, 18), ⟨1, 2, ⟨1, 0, 0⟩, ⟨1, 1, 0⟩, some (9, 0), none, 1⟩),
    ((6, 0), ⟨2, 0, ⟨1, 1, 0⟩, ⟨0, 0, 0⟩, some (9, 0), some (15, 0), 2⟩),
    ((15, 54), ⟨2, 3, ⟨1, 1, 0⟩, ⟨0, 1, 0⟩, some (15, 0), none, 1⟩),
    ((9, 0), ⟨3, 0, ⟨0, 1, 0⟩, ⟨0, 0, 0⟩, some (15, 0), none, 1⟩),
    ((15, 36), ⟨1, 4, ⟨1, 0, 0⟩, ⟨2, 0, 0⟩, some (15, 0), none, 1⟩),
    ((12, 0), ⟨4, 0, ⟨2, 0, 0⟩, ⟨0, 0, 0⟩, some (15, 0), none, 4⟩),
    ((15, 0), ⟨0, 5, ⟨0, 0, 0⟩, ⟨3, 0, 0⟩, none, none, 9⟩),
    ((18, 45), ⟨5, 1, ⟨3, 0, 0⟩, ⟨1, 0, 0⟩, none, none, 4⟩)],
   [((9, 0), quadF1),
    ((15, 0), ⟨0, 1, 4, ⟨0, 0, 0⟩, ⟨1, 0, 0⟩, ⟨2, 0, 0⟩, (3, 0), (15, 36), (12, 0),
      ⟨0, 0, 0⟩⟩)],
   [("p0", quadPoint0)], 1⟩

/-- The quad point after `move` toward `(5,5,0)`: clamped onto the boundary
edge `{1, 2}` at the corner `(1,1,0)`. -/
def quadClampP1 : NavmeshPoint := ⟨"p0", ⟨1, 1, 0⟩, ⟨0, 0, 1⟩, (9, 0)⟩

def quadClampM1 : Navmesh := ⟨quadVerts, quadEdges, quadFaces, [("p0", quadClampP1)], 1⟩

/-! ### Basic table lemmas -/

theorem findA_aset_self {κ α : Type} [DecidableEq κ] (l : List (κ × α)) (k : κ) (v : α) :
    findA (aset l k v) k = some v := by
  induction l with
  | nil => simp [aset, findA]
  | cons hd tl ih =>
    obtain ⟨k1, v1⟩ := hd
    by_cases h : k1 = k
    · simp [aset, findA, h]
    · simp [aset, findA, h, ih]

theorem aset_of_findA_eq {κ α : Type} [DecidableEq κ] (l : List (κ × α)) (k : κ) (v : α)
    (h : findA l k = some v) : aset l k v = l := by
  induction l with
  | nil => simp [findA] at h
  | cons hd tl ih =>
    obtain ⟨k1, v1⟩ := hd
    by_cases hk : k1 = k
    · simp [findA, hk] at h
      simp [aset, hk, h]
    · simp [findA, hk] at h
      simp [aset, hk, ih h]

theorem findA_mem_keys {κ α : Type} [DecidableEq κ] (l : List (κ × α)) (k : κ) (v : α)
    (h : findA l k = some v) : k ∈ l.map Prod.fst := by
  induction l with
  | nil => simp [findA] at h
  | cons hd tl ih =>
    obtain ⟨k1, v1⟩ := hd
    by_cases hk : k1 = k
    · simp [hk]
    · simp [findA, hk] at h
      simp [ih h]

/-! ### Lemmas about the opposite-edge resolver and the component scan -/

theorem find_opposide_edge_spec (m : Navmesh) (f : Face) (v : ℕ) (k : EKey) (e : Edge)
    (h : find_opposide_edge m f v = some (k, e)) :
    findEdge m k = some e ∧ edgeHas e v = false ∧ (k = f.ea ∨ k = f.eb ∨ k = f.ec) := by
  unfold find_opposide_edge at h
  split at h
  · exact absurd h (by simp)
  · rename_i ea hea
    split at h
    · rename_i ha
      simp only [Option.some.injEq, Prod.mk.injEq] at h
      obtain ⟨hk, he⟩ := h
      subst hk
      subst he
      exact ⟨hea, ha, Or.inl rfl⟩
    · rename_i ha
      split at h
      · exact absurd h (by simp)
      · rename_i eb heb
        split at h
        · rename_i hb
          simp only [Option.some.injEq, Prod.mk.injEq] at h
          obtain ⟨hk, he⟩ := h
          subst hk
          subst he
          exact ⟨heb, hb, Or.inr (Or.inl rfl)⟩
        · rename_i hb
          split at h
          · exact absurd h (by simp)
          · rename_i ec hec
            split at h
            · rename_i hc
              simp only [Option.some.injEq, Prod.mk.injEq] at h
              obtain ⟨hk, he⟩ := h
              subst hk
              subst he
              exact ⟨hec, hc, Or.inr (Or.inr rfl)⟩
            · exact absurd h (by simp)

theorem scanGo_settled (m : Navmesh) (fk : FKey) (f : Face) (items : List (ℚ × ℕ))
    (tested t2 : List EKey) (h : scanGo m fk f items tested = .settled t2) :
    t2 = tested ∧
      ∀ q v, (q, v) ∈ items →
        0 ≤ q ∨ ∃ k e, find_opposide_edge m f v = some (k, e) ∧ k ∈ tested := by
  induction items with
  | nil =>
    simp only [scanGo, ScanOut.settled.injEq] at h
    exact ⟨h.symm, by simp⟩
  | cons hd rest ih =>
    obtain ⟨q, v⟩ := hd
    simp only [scanGo] at h
    split at h
    · split at h
      · exact absurd h (by simp)
      · rename_i k e hfoe
        split at h
        · rename_i hmem
          obtain ⟨ht, hrest⟩ := ih h
          refine ⟨ht, ?_⟩
          intro q2 v2 hm
          rcases List.mem_cons.mp hm with heq | hm2
          · injection heq with h1 h2
            subst h1
            subst h2
            exact Or.inr ⟨k, e, hfoe, hmem⟩
          · exact hrest q2 v2 hm2
        · split at h <;> exact absurd h (by simp)
    · rename_i hq
      obtain ⟨ht, hrest⟩ := ih h
      refine ⟨ht, ?_⟩
      intro q2 v2 hm
      rcases List.mem_cons.mp hm with heq | hm2
      · injection heq with h1 h2
        subst h1
        subst h2
        exact Or.inl (le_of_not_lt hq)
      · exact hrest q2 v2 hm2

theorem scanGo_grows (m : Navmesh) (fk : FKey) (f : Face) (items : List (ℚ × ℕ))
    (tested t2 : List EKey)
    (hcase : (∃ f2, scanGo m fk f items tested = .cross t2 f2) ∨
      (∃ e, scanGo m fk f items tested = .boundary t2 e)) :
    ∃ k e2, t2 = tested ++ [k] ∧ k ∉ tested ∧ findA m.edges k = some e2 := by
  induction items with
  | nil =>
    rcases hcase with ⟨f2, h⟩ | ⟨e, h⟩ <;> simp [scanGo] at h
  | cons hd rest ih =>
    obtain ⟨q, v⟩ := hd
    have hstep : ∀ r, scanGo m fk f ((q, v) :: rest) tested = r →
        scanGo m fk f rest tested = r ∨ r = .crash ∨
        ∃ k e, find_opposide_edge m f v = some (k, e) ∧ k ∉ tested ∧
          ((∃ f2, r = .cross (tested ++ [k]) f2) ∨ r = .boundary (tested ++ [k]) e) := by
      intro r h
      simp only [scanGo] at h
      split at h
      · split at h
        · exact Or.inr (Or.inl h.symm)
        · rename_i k e hfoe
          split at h
          · exact Or.inl h
          · rename_i hmem
            split at h
            · rename_i f2 hoth
              exact Or.inr (Or.inr ⟨k, e, hfoe, hmem, Or.inl ⟨f2, h.symm⟩⟩)
            · exact Or.inr (Or.inr ⟨k, e, hfoe, hmem, Or.inr h.symm⟩)
      · exact Or.inl h
    rcases hcase with ⟨f2, h⟩ | ⟨e, h⟩
    · rcases hstep _ h with h2 | hcr | ⟨k, e, hfoe, hmem, hr⟩
      · exact ih (Or.inl ⟨f2, h2⟩)
      · exact absurd hcr (by simp)
      · have hfe : findA m.edges k = some e := (find_opposide_edge_spec m f v k e hfoe).1
        rcases hr with ⟨f3, hf3⟩ | hf3
        · simp only [ScanOut.cross.injEq] at hf3
          exact ⟨k, e, hf3.1, hmem, hfe⟩
        · exact absurd hf3 (by simp)
    · rcases hstep _ h with h2 | hcr | ⟨k, e2, hfoe, hmem, hr⟩
      · exact ih (Or.inr ⟨e, h2⟩)
      · exact absurd hcr (by simp)
      · have hfe : findA m.edges k = some e2 := (find_opposide_edge_spec m f v k e2 hfoe).1
        rcases hr with ⟨f3, hf3⟩ | hf3
        · exact absurd hf3 (by simp)
        · simp only [ScanOut.boundary.injEq] at hf3
          exact ⟨k, e2, hf3.1, hmem, hfe⟩

theorem scanGo_of_nonneg (m : Navmesh) (fk : FKey) (f : Face) (items : List (ℚ × ℕ))
    (tested : List EKey) (h : ∀ q v, (q, v) ∈ items → 0 ≤ q) :
    scanGo m fk f items tested = .settled tested := by
  induction items with
  | nil => simp [scanGo]
  | cons hd rest ih =>
    obtain ⟨q, v⟩ := hd
    have hq : ¬ q < 0 := not_lt.mpr (h q v (by simp))
    simp only [scanGo]
    rw [if_neg hq]
    exact ih fun q2 v2 hm => h q2 v2 (by simp [hm])

/-! ### Termination of the walk -/

theorem untestedCount_append_lt (m : Navmesh) (tested : List EKey) (k : EKey)
    (hk : k ∈ m.edges.map Prod.fst) (hmem : k ∉ tested) :
    untestedCount m (tested ++ [k]) < untestedCount m tested := by
  unfold untestedCount
  revert hk
  generalize m.edges.map Prod.fst = keys
  intro hk
  induction keys with
  | nil => simp at hk
  | cons a l ih =>
    by_cases hak : a = k
    · subst hak
      have hA : decide (a ∉ tested ++ [a]) = false := by simp
      have hB : decide (a ∉ tested) = true := by simp [hmem]
      rw [List.filter_cons, List.filter_cons, hA, hB]
      simp only [Bool.false_eq_true, if_false, if_true, List.length_cons]
      have hsub : List.Sublist (l.filter fun x => decide (x ∉ tested ++ [a]))
          (l.filter fun x => decide (x ∉ tested)) := by
        apply List.monotone_filter_right
        intro x hx
        simp only [decide_eq_true_eq] at hx
        simp only [decide_eq_true_eq]
        intro hc
        exact hx (by simp [hc])
      exact Nat.lt_succ_of_le hsub.length_le
    · have hk2 : k ∈ l := by
        rcases List.mem_cons.mp hk with h | h
        · exact absurd h.symm hak
        · exact h
      have hiff : decide (a ∉ tested ++ [k]) = decide (a ∉ tested) := by
        rw [decide_eq_decide]
        simp only [List.mem_append, List.mem_singleton, not_or]
        constructor
        · intro hx
          exact hx.1
        · intro hx
          exact ⟨hx, hak⟩
      rw [List.filter_cons, List.filter_cons, hiff]
      rcases Bool.eq_false_or_eq_true (decide (a ∉ tested)) with hb | hb <;> rw [hb]
      · simpa using ih hk2
      · simpa using Nat.succ_lt_succ (ih hk2)

theorem moveLoop_not_outOfFuel (m : Navmesh) : ∀ (fuel : ℕ) (p : NavmeshPoint) (np : V3)
    (tested : List EKey) (dl : ℕ), untestedCount m tested < fuel →
    moveLoop m fuel p np tested dl ≠ .outOfFuel := by
  intro fuel
  induction fuel with
  | zero =>
    intro p np tested dl h
    exact absurd h (Nat.not_lt_zero _)
  | succ n ih =>
    intro p np tested dl hlt heq
    simp only [moveLoop] at heq
    split at heq
    · exact absurd heq (by simp)
    · rename_i face hface
      split at heq
      · exact absurd heq (by simp)
      · rename_i tested2 f2 hscan
        rw [walkScan] at hscan
        obtain ⟨k, e2, ht2, hkm, hke⟩ :=
          scanGo_grows m p.face face _ tested tested2 (Or.inl ⟨f2, hscan⟩)
        split at heq
        · exact absurd heq (by simp)
        · refine ih _ _ _ _ ?_ heq
          have hdec : untestedCount m tested2 < untestedCount m tested := by
            rw [ht2]
            exact untestedCount_append_lt m tested k (findA_mem_keys _ _ _ hke) hkm
          exact lt_of_lt_of_le hdec (Nat.lt_succ_iff.mp hlt)
      · rename_i tested2 e hscan
        rw [walkScan] at hscan
        obtain ⟨k, e2, ht2, hkm, hke⟩ :=
          scanGo_grows m p.face face _ tested tested2 (Or.inr ⟨e, hscan⟩)
        split at heq
        · exact absurd heq (by simp)
        · refine ih _ _ _ _ ?_ heq
          have hdec : untestedCount m tested2 < untestedCount m tested := by
            rw [ht2]
            exact untestedCount_append_lt m tested k (findA_mem_keys _ _ _ hke) hkm
          exact lt_of_lt_of_le hdec (Nat.lt_succ_iff.mp hlt)
      · split at heq <;> exact absurd heq (by simp)

theorem moveLoop_not_deadlock (m : Navmesh) : ∀ (fuel : ℕ) (p : NavmeshPoint) (np : V3)
    (tested : List EKey) (dl : ℕ), dl ≤ 10 →
    moveLoop m fuel p np tested dl ≠ .deadlockError := by
  intro fuel
  induction fuel with
  | zero =>
    intro p np tested dl hdl heq
    exact absurd heq (by simp [moveLoop])
  | succ n ih =>
    intro p np tested dl hdl heq
    simp only [moveLoop] at heq
    split at heq
    · exact absurd heq (by simp)
    · split at heq
      · exact absurd heq (by simp)
      · split at heq
        · rename_i hgt
          exact absurd hgt (not_lt.mpr hdl)
        · exact ih _ _ _ _ hdl heq
      · split at heq
        · rename_i hgt
          exact absurd hgt (not_lt.mpr hdl)
        · exact ih _ _ _ _ hdl heq
      · split at heq
        · rename_i hgt
          exact absurd hgt (not_lt.mpr hdl)
        · exact absurd heq (by simp)

/-! ### The commit invariant of the walk -/

theorem moveLoop_ok_inv (m : Navmesh) : ∀ (fuel : ℕ) (p : NavmeshPoint) (np : V3)
    (tested : List EKey) (dl : ℕ) (p2 : NavmeshPoint) (np2 : V3) (tested2 : List EKey),
    moveLoop m fuel p np tested dl = .ok p2 np2 tested2 →
    p2.id = p.id ∧ tested ⊆ tested2 ∧
    ∃ f, findFace m p2.face = some f ∧
      p2.bcpos = get_barycentric_coordinates f.paPos f.pbPos f.pcPos
        (project_on_plane np2 f.paPos f.normal) ∧
      p2.worldpos = barycentric_to_cartesian f.paPos f.pbPos f.pcPos p2.bcpos ∧
      (∀ q v, (q, v) ∈ [(p2.bcpos.x, f.pa), (p2.bcpos.y, f.pb), (p2.bcpos.z, f.pc)] →
        0 ≤ q ∨ ∃ k e, find_opposide_edge m f v = some (k, e) ∧ k ∈ tested2) := by
  intro fuel
  induction fuel with
  | zero =>
    intro p np tested dl p2 np2 tested2 h
    exact absurd h (by simp [moveLoop])
  | succ n ih =>
    intro p np tested dl p2 np2 tested2 h
    simp only [moveLoop] at h
    split at h
    · exact absurd h (by simp)
    · rename_i face hface
      split at h
      · exact absurd h (by simp)
      · rename_i tested3 f2 hscan
        split at h
        · exact absurd h (by simp)
        · obtain ⟨hid, hsub, hrest⟩ := ih _ _ _ _ _ _ _ h
          refine ⟨hid, ?_, hrest⟩
          rw [walkScan] at hscan
          obtain ⟨k, e2, ht3, _, _⟩ :=
            scanGo_grows m p.face face _ tested tested3 (Or.inl ⟨f2, hscan⟩)
          intro x hx
          exact hsub (by simp [ht3, hx])
      · rename_i tested3 e hscan
        split at h
        · exact absurd h (by simp)
        · obtain ⟨hid, hsub, hrest⟩ := ih _ _ _ _ _ _ _ h
          refine ⟨hid, ?_, hrest⟩
          rw [walkScan] at hscan
          obtain ⟨k, e2, ht3, _, _⟩ :=
            scanGo_grows m p.face face _ tested tested3 (Or.inr ⟨e, hscan⟩)
          intro x hx
          exact hsub (by simp [ht3, hx])
      · rename_i tested3 hscan
        split at h
        · exact absurd h (by simp)
        · rw [walkScan] at hscan
          obtain ⟨ht3, hprop⟩ := scanGo_settled m p.face face _ tested tested3 hscan
          injection h with h1 h2 h3
          subst h1
          subst h2
          subst h3
          refine ⟨rfl, by simp [ht3], face, hface, rfl, rfl, ?_⟩
          rw [ht3]
          exact hprop

/-! ### Congruence: the walk reads only the faces and edges tables, and only the
`face` and `id` fields of the point -/

theorem find_opposide_edge_congr (m m2 : Navmesh) (he : m.edges = m2.edges)
    (f : Face) (v : ℕ) : find_opposide_edge m f v = find_opposide_edge m2 f v := by
  unfold find_opposide_edge
  rw [show findEdge m f.ea = findEdge m2 f.ea by simp [findEdge, he],
    show findEdge m f.eb = findEdge m2 f.eb by simp [findEdge, he],
    show findEdge m f.ec = findEdge m2 f.ec by simp [findEdge, he]]

theorem scanGo_congr (m m2 : Navmesh) (he : m.edges = m2.edges) (fk : FKey) (f : Face) :
    ∀ (items : List (ℚ × ℕ)) (tested : List EKey),
    scanGo m fk f items tested = scanGo m2 fk f items tested := by
  intro items
  induction items with
  | nil => intro tested; rfl
  | cons hd rest ih =>
    intro tested
    obtain ⟨q, v⟩ := hd
    simp only [scanGo, find_opposide_edge_congr m m2 he f v, ih]

theorem moveLoop_congr_tables (m m2 : Navmesh) (hf : m.faces = m2.faces)
    (he : m.edges = m2.edges) : ∀ (fuel : ℕ) (p : NavmeshPoint) (np : V3)
    (tested : List EKey) (dl : ℕ),
    moveLoop m fuel p np tested dl = moveLoop m2 fuel p np tested dl := by
  intro fuel
  induction fuel with
  | zero => intro p np tested dl; rfl
  | succ n ih =>
    intro p np tested dl
    have h1 : findFace m p.face = findFace m2 p.face := by simp [findFace, hf]
    simp only [moveLoop, h1, walkScan, scanGo_congr m m2 he]
    cases hff : findFace m2 p.face with
    | none => rfl
    | some face =>
      simp only []
      cases hsc : scanGo m2 p.face face
          [((get_barycentric_coordinates face.paPos face.pbPos face.pcPos
              (project_on_plane np face.paPos face.normal)).x, face.pa),
           ((get_barycentric_coordinates face.paPos face.pbPos face.pcPos
              (project_on_plane np face.paPos face.normal)).y, face.pb),
           ((get_barycentric_coordinates face.paPos face.pbPos face.pcPos
              (project_on_plane np face.paPos face.normal)).z, face.pc)] tested with
      | settled tested2 => rfl
      | cross tested2 f2 =>
        by_cases hdl : dl > 10
        · simp [hdl]
        · simp [hdl, ih]
      | boundary tested2 e =>
        by_cases hdl : dl > 10
        · simp [hdl]
        · simp [hdl, ih]
      | crash => rfl

theorem moveLoop_congr_point (m : Navmesh) : ∀ (fuel : ℕ) (p q : NavmeshPoint)
    (np : V3) (tested : List EKey) (dl : ℕ), p.face = q.face → p.id = q.id →
    moveLoop m fuel p np tested dl = moveLoop m fuel q np tested dl := by
  intro fuel
  induction fuel with
  | zero => intro p q np tested dl hface hid; rfl
  | succ n ih =>
    intro p q np tested dl hface hid
    simp only [moveLoop, hface]
    cases hff : findFace m q.face with
    | none => rfl
    | some face =>
      simp only []
      cases hsc : walkScan m q.face face
          (get_barycentric_coordinates face.paPos face.pbPos face.pcPos
            (project_on_plane np face.paPos face.normal)) tested with
      | settled tested2 =>
        by_cases hdl : dl > 10
        · simp [hdl]
        · obtain ⟨ida, wa, ba, fa⟩ := p
          obtain ⟨idb, wb, bb, fb⟩ := q
          simp only at hface hid
          simp [hdl, hface, hid]
      | cross tested2 f2 =>
        by_cases hdl : dl > 10
        · simp [hdl]
        · simp only [hdl, if_false]
          exact ih _ _ _ _ _ rfl (by simp [hid])
      | boundary tested2 e =>
        by_cases hdl : dl > 10
        · simp [hdl]
        · simp only [hdl, if_false]
          exact ih _ _ _ _ _ hface hid
      | crash => rfl

theorem untestedCount_nil (m : Navmesh) : untestedCount m [] = m.edges.length := by
  simp [untestedCount]

/-- C2: the walk loop inside `move` terminates for every registered point and
every target: it never exhausts its iteration budget (`move` allots
`edges.length + 1` iterations, and the per-call visited-edge set strictly grows
on every looping iteration, so the walk converges, crashes on a dangling
reference, or would abort via the deadlock guard — it can never loop forever).
The second conjunct is the general bound: whenever the number of not yet
visited mesh edges is below the remaining fuel, the walk finishes within that
fuel. -/
theorem c2_walk_terminates :
    (∀ (m : Navmesh) (id : String) (np : V3), Navmesh.move m id np ≠ .outOfFuel) ∧
    (∀ (m : Navmesh) (fuel : ℕ) (p : NavmeshPoint) (np : V3) (tested : List EKey) (dl : ℕ),
      untestedCount m tested < fuel → moveLoop m fuel p np tested dl ≠ .outOfFuel) := by
  constructor
  · intro m id np h
    unfold Navmesh.move at h
    split at h
    · exact absurd h (by simp)
    · rename_i p hp
      split at h
      · exact absurd h (by simp)
      · exact absurd h (by simp)
      · rename_i hloop
        exact moveLoop_not_outOfFuel m (m.edges.length + 1) p np [] 0
          (by rw [untestedCount_nil]; exact Nat.lt_succ_self _) hloop
      · exact absurd h (by simp)
  · intro m fuel p np tested dl hlt
    exact moveLoop_not_outOfFuel m fuel p np tested dl hlt

/-- C3: the diagnostic counter `deadlock` is initialized to 0 and never
incremented anywhere in the walk, so the guard `deadlock > 10` never fires and
`move` can never raise the `DeadlockError` — the abort branch is dead code. -/
theorem c3_deadlock_unreachable (m : Navmesh) (id : String) (np : V3) :
    Navmesh.move m id np ≠ .deadlockError := by
  intro h
  unfold Navmesh.move at h
  split at h
  · exact absurd h (by simp)
  · rename_i p hp
    split at h
    · exact absurd h (by simp)
    · rename_i hloop
      exact moveLoop_not_deadlock m (m.edges.length + 1) p np [] 0 (by norm_num) hloop
    · exact absurd h (by simp)
    · exact absurd h (by simp)

theorem faceAccepts_iff (f : Face) (pos : V3) :
    faceAccepts f pos = true ↔
      (0 ≤ (get_barycentric_coordinates f.paPos f.pbPos f.pcPos
          (project_on_plane pos f.paPos f.normal)).x ∧
       0 ≤ (get_barycentric_coordinates f.paPos f.pbPos f.pcPos
          (project_on_plane pos f.paPos f.normal)).y ∧
       0 ≤ (get_barycentric_coordinates f.paPos f.pbPos f.pcPos
          (project_on_plane pos f.paPos f.normal)).z) := by
  simp [faceAccepts, Bool.and_eq_true, decide_eq_true_eq, and_assoc]

theorem registerGo_eq_find (g : ℕ) (pos : V3) (faces : List (FKey × Face)) :
    registerGo g pos faces = (faces.find? (fun kf => faceAccepts kf.2 pos)).map
      (fun kf => ("p" ++ toString g,
        (⟨"p" ++ toString g, project_on_plane pos kf.2.paPos kf.2.normal,
          get_barycentric_coordinates kf.2.paPos kf.2.pbPos kf.2.pcPos
            (project_on_plane pos kf.2.paPos kf.2.normal), kf.1⟩ : NavmeshPoint))) := by
  induction faces with
  | nil => rfl
  | cons hd rest ih =>
    obtain ⟨k, f⟩ := hd
    by_cases hacc : faceAccepts f pos = true
    · rw [List.find?_cons_of_pos rest
        (show (fun kf : FKey × Face => faceAccepts kf.2 pos) (k, f) = true from hacc)]
      simp only [registerGo]
      rw [if_pos ((faceAccepts_iff f pos).mp hacc)]
      rfl
    · rw [List.find?_cons_of_neg rest
        (show ¬ (fun kf : FKey × Face => faceAccepts kf.2 pos) (k, f) = true from hacc)]
      simp only [registerGo]
      rw [if_neg (fun hc => hacc ((faceAccepts_iff f pos).mpr hc))]
      exact ih

/-- C6: `register` scans the faces table in insertion order and accepts the
first face whose plane-projected query has all three barycentric components
`≥ 0` (`List.find?` over the insertion-ordered table); on acceptance it stores
a fresh `NavmeshPoint` holding the projected position, those barycentric
coordinates and that face, under the fresh id `"p" + guids`, and increments the
sequence counter; when no face accepts, it returns `null` and the state is
untouched. -/
theorem c6_register_first_accepting_face (m : Navmesh) (pos : V3) :
    Navmesh.register m pos =
      match m.faces.find? (fun kf => faceAccepts kf.2 pos) with
      | some (k, f) =>
        (some ("p" ++ toString m.guids),
          { m with
            points := aset m.points ("p" ++ toString m.guids)
              ⟨"p" ++ toString m.guids,
                project_on_plane pos f.paPos f.normal,
                get_barycentric_coordinates f.paPos f.pbPos f.pcPos
                  (project_on_plane pos f.paPos f.normal), k⟩,
            guids := m.guids + 1 })
      | none => (none, m) := by
  unfold Navmesh.register
  rw [registerGo_eq_find]
  cases hfind : m.faces.find? (fun kf => faceAccepts kf.2 pos) with
  | none => rfl
  | some kf =>
    obtain ⟨k, f⟩ := kf
    rfl

/-! ### Build: slot counting and the non-manifold error -/

theorem findA_aset_ne {κ α : Type} [DecidableEq κ] (l : List (κ × α)) (k k2 : κ) (v : α)
    (h : k ≠ k2) : findA (aset l k v) k2 = findA l k2 := by
  induction l with
  | nil => simp [aset, findA, h]
  | cons hd tl ih =>
    obtain ⟨k1, v1⟩ := hd
    by_cases hk : k1 = k
    · subst hk
      simp [aset, findA, h]
    · simp [aset, findA, hk, ih]

theorem slots_le_two (m : Navmesh) (k : EKey) : slots m k ≤ 2 := by
  unfold slots
  split
  · norm_num
  · split <;> split <;> norm_num

theorem ensureVertex_edges (m : Navmesh) (pid : ℕ) (positions : List ℚ) :
    (ensureVertex m pid positions).1.edges = m.edges := by
  unfold ensureVertex
  split
  · rfl
  · rfl

theorem ensureVertex_faces (m : Navmesh) (pid : ℕ) (positions : List ℚ) :
    (ensureVertex m pid positions).1.faces = m.faces := by
  unfold ensureVertex
  split
  · rfl
  · rfl

theorem ensureEdge_slots (m : Navmesh) (k : EKey) (va vb : ℕ) (pa pb : V3) (k2 : EKey) :
    slots (ensureEdge m k va vb pa pb) k2 = slots m k2 := by
  unfold ensureEdge
  split
  · rfl
  · rename_i hnone
    unfold slots
    by_cases hk : k = k2
    · subst hk
      simp only [findEdge] at hnone
      rw [show ({ m with edges := aset m.edges k ⟨va, vb, pa, pb, none, none, distSq pa pb⟩ }
          : Navmesh).edges = aset m.edges k ⟨va, vb, pa, pb, none, none, distSq pa pb⟩ from rfl,
        findA_aset_self, hnone]
      simp
    · rw [show ({ m with edges := aset m.edges k ⟨va, vb, pa, pb, none, none, distSq pa pb⟩ }
          : Navmesh).edges = aset m.edges k ⟨va, vb, pa, pb, none, none, distSq pa pb⟩ from rfl,
        findA_aset_ne _ _ _ _ hk]

theorem ensureEdge_isSome (m : Navmesh) (k : EKey) (va vb : ℕ) (pa pb : V3) :
    (findA (ensureEdge m k va vb pa pb).edges k).isSome := by
  unfold ensureEdge
  split
  · rename_i e he
    simp only [findEdge] at he
    simp [he]
  · simp [findA_aset_self]

theorem ensureEdge_preserves_isSome (m : Navmesh) (k : EKey) (va vb : ℕ) (pa pb : V3)
    (k2 : EKey) (h : (findA m.edges k2).isSome) :
    (findA (ensureEdge m k va vb pa pb).edges k2).isSome := by
  unfold ensureEdge
  split
  · exact h
  · by_cases hk : k = k2
    · subst hk
      simp [findA_aset_self]
    · rw [show ({ m with edges := aset m.edges k ⟨va, vb, pa, pb, none, none, distSq pa pb⟩ }
          : Navmesh).edges = aset m.edges k ⟨va, vb, pa, pb, none, none, distSq pa pb⟩ from rfl,
        findA_aset_ne _ _ _ _ hk]
      exact h

theorem ensureEdge_faces (m : Navmesh) (k : EKey) (va vb : ℕ) (pa pb : V3) :
    (ensureEdge m k va vb pa pb).faces = m.faces := by
  unfold ensureEdge
  split
  · rfl
  · rfl

theorem Edge.add_cases (e : Edge) (f : FKey) :
    (e.left = none ∧ e.add f = .ok { e with left := some f }) ∨
    (∃ f0, e.left = some f0 ∧ e.right = none ∧ e.add f = .ok { e with right := some f }) ∨
    (∃ f0 f1, e.left = some f0 ∧ e.right = some f1 ∧ e.add f = .error .topologyError) := by
  unfold Edge.add
  rcases hl : e.left with _ | f0
  · exact Or.inl ⟨rfl, rfl⟩
  · rcases hr : e.right with _ | f1
    · exact Or.inr (Or.inl ⟨f0, rfl, rfl, rfl⟩)
    · exact Or.inr (Or.inr ⟨f0, f1, rfl, rfl, rfl⟩)

theorem slots_aset (m : Navmesh) (k : EKey) (e2 : Edge) (k2 : EKey) :
    slots { m with edges := aset m.edges k e2 } k2 =
      if k = k2 then
        (if e2.left.isSome then 1 else 0) + (if e2.right.isSome then 1 else 0)
      else slots m k2 := by
  by_cases hk : k = k2
  · subst hk
    unfold slots
    dsimp only
    rw [findA_aset_self]
    simp
  · unfold slots
    dsimp only
    rw [findA_aset_ne _ _ _ _ hk, if_neg hk]

theorem addFaceToEdge_ok_spec (m : Navmesh) (k : EKey) (f : FKey) (m2 : Navmesh)
    (h : addFaceToEdge m k f = .ok m2) :
    slots m2 k = slots m k + 1 ∧ (∀ k2, k2 ≠ k → slots m2 k2 = slots m k2) ∧
    m2.faces = m.faces ∧ m2.verticies = m.verticies ∧
    (∀ k2, (findA m.edges k2).isSome → (findA m2.edges k2).isSome) := by
  unfold addFaceToEdge at h
  split at h
  · exact absurd h (by simp)
  · rename_i e he
    simp only [findEdge] at he
    have hpres : ∀ (e2 : Edge) (k2 : EKey), (findA m.edges k2).isSome →
        (findA ({ m with edges := aset m.edges k e2 } : Navmesh).edges k2).isSome := by
      intro e2 k2 hk2
      by_cases hkk : k = k2
      · subst hkk
        dsimp only
        simp [findA_aset_self]
      · dsimp only
        rw [findA_aset_ne _ _ _ _ hkk]
        exact hk2
    rcases Edge.add_cases e f with ⟨hl, hadd⟩ | ⟨f0, hl, hr, hadd⟩ | ⟨f0, f1, hl, hr, hadd⟩ <;>
      rw [hadd] at h
    · simp only [Except.ok.injEq] at h
      subst h
      refine ⟨?_, ?_, rfl, rfl, hpres _⟩
      · rw [slots_aset, if_pos rfl]
        unfold slots
        rw [he]
        dsimp only
        rw [hl]
        simp [Nat.add_comm]
      · intro k2 hk2
        rw [slots_aset, if_neg (fun hc => hk2 hc.symm)]
    · simp only [Except.ok.injEq] at h
      subst h
      refine ⟨?_, ?_, rfl, rfl, hpres _⟩
      · rw [slots_aset, if_pos rfl]
        unfold slots
        rw [he]
        dsimp only
        rw [hl, hr]
        simp
      · intro k2 hk2
        rw [slots_aset, if_neg (fun hc => hk2 hc.symm)]
    · exact absurd h (by simp)

theorem addFaceToEdge_error_spec (m : Navmesh) (k : EKey) (f : FKey) (err : NavErr)
    (m2 : Navmesh) (hsome : (findA m.edges k).isSome)
    (h : addFaceToEdge m k f = .error (err, m2)) :
    err = .topologyError ∧ m2 = m := by
  unfold addFaceToEdge at h
  split at h
  · rename_i hnone
    simp only [findEdge] at hnone
    rw [hnone] at hsome
    exact absurd hsome (by simp)
  · rename_i e he
    rcases Edge.add_cases e f with ⟨hl, hadd⟩ | ⟨f0, hl, hr, hadd⟩ | ⟨f0, f1, hl, hr, hadd⟩ <;>
      rw [hadd] at h
    · exact absurd h (by simp)
    · exact absurd h (by simp)
    · simp only [Except.error.injEq, Prod.mk.injEq] at h
      exact ⟨h.1.symm, h.2.symm⟩

theorem slots_eq_of_edges (m m2 : Navmesh) (h : m.edges = m2.edges) (k : EKey) :
    slots m k = slots m2 k := by
  unfold slots
  rw [h]

theorem addFaceToEdge_slots_if (m : Navmesh) (k : EKey) (f : FKey) (m2 : Navmesh)
    (h : addFaceToEdge m k f = .ok m2) (k2 : EKey) :
    slots m2 k2 = slots m k2 + (if k = k2 then 1 else 0) := by
  obtain ⟨h1, h2, _⟩ := addFaceToEdge_ok_spec m k f m2 h
  by_cases hk : k = k2
  · subst hk
    rw [if_pos rfl]
    exact h1
  · rw [if_neg hk, h2 k2 (fun hc => hk hc.symm)]
    simp

theorem slots_set_faces (m : Navmesh) (fs : List (FKey × Face)) (k : EKey) :
    slots { m with faces := fs } k = slots m k :=
  slots_eq_of_edges _ _ rfl k

theorem processTri_spec (m0 : Navmesh) (a b c : ℕ) (positions : List ℚ) :
    (∃ m2, processTri m0 a b c positions = .ok m2 ∧
      ∀ k, slots m2 k = slots m0 k +
        ((if key2 (a * 3) (b * 3) = k then 1 else 0) +
          (if key2 (b * 3) (c * 3) = k then 1 else 0) +
          (if key2 (c * 3) (a * 3) = k then 1 else 0))) ∨
    (∃ m2, processTri m0 a b c positions = .error (.topologyError, m2)) := by
  unfold processTri
  dsimp only
  generalize hr1 : ensureVertex m0 a positions = r1
  generalize hr2 : ensureVertex r1.1 b positions = r2
  generalize hr3 : ensureVertex r2.1 c positions = r3
  have hedges3 : r3.1.edges = m0.edges := by
    rw [← hr3, ensureVertex_edges, ← hr2, ensureVertex_edges, ← hr1, ensureVertex_edges]
  generalize hm4 : ensureEdge r3.1 (key2 (a * 3) (b * 3)) a b r1.2 r2.2 = m4
  generalize hm5 : ensureEdge m4 (key2 (b * 3) (c * 3)) b c r2.2 r3.2 = m5
  generalize hm6 : ensureEdge m5 (key2 (c * 3) (a * 3)) c a r3.2 r1.2 = m6
  have hslots6 : ∀ k, slots m6 k = slots m0 k := by
    intro k
    rw [← hm6, ensureEdge_slots, ← hm5, ensureEdge_slots, ← hm4, ensureEdge_slots,
      slots_eq_of_edges _ m0 hedges3]
  have hp1 : (findA m6.edges (key2 (a * 3) (b * 3))).isSome := by
    rw [← hm6]
    apply ensureEdge_preserves_isSome
    rw [← hm5]
    apply ensureEdge_preserves_isSome
    rw [← hm4]
    exact ensureEdge_isSome _ _ _ _ _ _
  have hp2 : (findA m6.edges (key2 (b * 3) (c * 3))).isSome := by
    rw [← hm6]
    apply ensureEdge_preserves_isSome
    rw [← hm5]
    exact ensureEdge_isSome _ _ _ _ _ _
  have hp3 : (findA m6.edges (key2 (c * 3) (a * 3))).isSome := by
    rw [← hm6]
    exact ensureEdge_isSome _ _ _ _ _ _
  cases hA1 : addFaceToEdge m6 (key2 (a * 3) (b * 3)) (key3 (a * 3) (b * 3) (c * 3)) with
  | error e =>
    obtain ⟨ep, m7⟩ := e
    obtain ⟨herr, hst⟩ := addFaceToEdge_error_spec _ _ _ _ _ hp1 hA1
    subst herr
    exact Or.inr ⟨m7, rfl⟩
  | ok m7 =>
    dsimp only
    obtain ⟨_, _, _, _, hpres7⟩ := addFaceToEdge_ok_spec _ _ _ _ hA1
    cases hA2 : addFaceToEdge m7 (key2 (b * 3) (c * 3)) (key3 (a * 3) (b * 3) (c * 3)) with
    | error e =>
      obtain ⟨ep, m8⟩ := e
      obtain ⟨herr, hst⟩ := addFaceToEdge_error_spec _ _ _ _ _ (hpres7 _ hp2) hA2
      subst herr
      exact Or.inr ⟨m8, rfl⟩
    | ok m8 =>
      dsimp only
      obtain ⟨_, _, _, _, hpres8⟩ := addFaceToEdge_ok_spec _ _ _ _ hA2
      cases hA3 : addFaceToEdge m8 (key2 (c * 3) (a * 3)) (key3 (a * 3) (b * 3) (c * 3)) with
      | error e =>
        obtain ⟨ep, m9⟩ := e
        obtain ⟨herr, hst⟩ := addFaceToEdge_error_spec _ _ _ _ _ (hpres8 _ (hpres7 _ hp3)) hA3
        subst herr
        exact Or.inr ⟨m9, rfl⟩
      | ok m9 =>
        dsimp only
        refine Or.inl ⟨_, rfl, ?_⟩
        intro k
        have e7 := addFaceToEdge_slots_if _ _ _ _ hA1 k
        have e8 := addFaceToEdge_slots_if _ _ _ _ hA2 k
        have e9 := addFaceToEdge_slots_if _ _ _ _ hA3 k
        rw [slots_set_faces, e9, e8, e7, hslots6]
        ring

theorem buildLoop_spec (positions : List ℚ) : ∀ (indices : List ℕ) (m : Navmesh),
    (∃ m2, buildLoop m indices positions = .ok m2 ∧
      ∀ k, slots m2 k = slots m k + edgeKeyOcc indices k) ∨
    (∃ m2, buildLoop m indices positions = .error (.topologyError, m2)) := by
  have H : ∀ (n : ℕ) (indices : List ℕ), indices.length ≤ n → ∀ m,
      (∃ m2, buildLoop m indices positions = .ok m2 ∧
        ∀ k, slots m2 k = slots m k + edgeKeyOcc indices k) ∨
      (∃ m2, buildLoop m indices positions = .error (.topologyError, m2)) := by
    intro n
    induction n with
    | zero =>
      intro indices hlen m
      have hnil : indices = [] := List.length_eq_zero.mp (Nat.le_zero.mp hlen)
      subst hnil
      exact Or.inl ⟨m, rfl, fun k => by simp [edgeKeyOcc]⟩
    | succ n ih =>
      intro indices hlen m
      match indices with
      | [] => exact Or.inl ⟨m, rfl, fun k => by simp [edgeKeyOcc]⟩
      | [a] => exact Or.inl ⟨m, rfl, fun k => by simp [edgeKeyOcc]⟩
      | [a, b] => exact Or.inl ⟨m, rfl, fun k => by simp [edgeKeyOcc]⟩
      | a :: b :: c :: rest =>
        rcases processTri_spec m a b c positions with ⟨m2, hok, hsl⟩ | ⟨m2, herr⟩
        · have hstep : buildLoop m (a :: b :: c :: rest) positions =
              buildLoop m2 rest positions := by
            simp only [buildLoop, hok]
          have hlen2 : rest.length ≤ n := by
            simp only [List.length_cons] at hlen
            omega
          rcases ih rest hlen2 m2 with ⟨m3, hok3, hsl3⟩ | ⟨m3, herr3⟩
          · refine Or.inl ⟨m3, by rw [hstep]; exact hok3, fun k => ?_⟩
            rw [hsl3 k, hsl k]
            simp only [edgeKeyOcc]
            ring
          · exact Or.inr ⟨m3, by rw [hstep]; exact herr3⟩
        · exact Or.inr ⟨m2, by simp only [buildLoop, herr]⟩
  intro indices m
  exact H indices.length indices le_rfl m

/-- C4: building a mesh in which some undirected edge is referenced by three or
more triangles fails with the `TopologyError` thrown by `Edge.add` when the
third incident face is wired onto that edge: an edge structurally holds at most
two incident faces (first conjunct), and any index list whose edge-key
occurrence count reaches 3 for some key makes `build` (from the empty mesh)
return the error instead of silently dropping or merging the offending
triangle (second conjunct); for edge keys the hash-key pair determines the
undirected vertex-index pair, so a shared undirected edge always counts up. -/
theorem c4_nonmanifold_rejected :
    (∀ (m : Navmesh) (k : EKey), slots m k ≤ 2) ∧
    (∀ (indices : List ℕ) (positions : List ℚ) (k : EKey),
      3 ≤ edgeKeyOcc indices k →
      ∃ m2, Navmesh.build Navmesh.init indices positions = .error (.topologyError, m2)) := by
  refine ⟨slots_le_two, ?_⟩
  intro indices positions k hocc
  rcases buildLoop_spec positions indices Navmesh.init with ⟨m2, hok, hsl⟩ | ⟨m2, herr⟩
  · exfalso
    have h2 := slots_le_two m2 k
    rw [hsl k] at h2
    have h0 : slots Navmesh.init k = 0 := by simp [slots, Navmesh.init, findA]
    omega
  · exact ⟨m2, herr⟩

/-! ### A failed build never removes table entries (it only adds or updates) -/

theorem aset_preserves_isSome {κ α : Type} [DecidableEq κ] (l : List (κ × α)) (k : κ)
    (v : α) (k2 : κ) (h : (findA l k2).isSome) : (findA (aset l k v) k2).isSome := by
  by_cases hk : k = k2
  · subst hk
    simp [findA_aset_self]
  · rw [findA_aset_ne _ _ _ _ hk]
    exact h

/-- Key-presence monotonicity between two mesh states. -/
def presMono (m m2 : Navmesh) : Prop :=
  (∀ k, (findA m.verticies k).isSome → (findA m2.verticies k).isSome) ∧
  (∀ k, (findA m.edges k).isSome → (findA m2.edges k).isSome) ∧
  (∀ k, (findA m.faces k).isSome → (findA m2.faces k).isSome)

theorem presMono_refl (m : Navmesh) : presMono m m :=
  ⟨fun _ h => h, fun _ h => h, fun _ h => h⟩

theorem presMono_trans (m m2 m3 : Navmesh) (h1 : presMono m m2) (h2 : presMono m2 m3) :
    presMono m m3 :=
  ⟨fun k h => h2.1 k (h1.1 k h), fun k h => h2.2.1 k (h1.2.1 k h),
    fun k h => h2.2.2 k (h1.2.2 k h)⟩

theorem ensureVertex_presMono (m : Navmesh) (pid : ℕ) (positions : List ℚ) :
    presMono m (ensureVertex m pid positions).1 := by
  unfold ensureVertex
  split
  · exact presMono_refl m
  · exact ⟨fun k h => aset_preserves_isSome _ _ _ _ h, fun _ h => h, fun _ h => h⟩

theorem ensureEdge_presMono (m : Navmesh) (k : EKey) (va vb : ℕ) (pa pb : V3) :
    presMono m (ensureEdge m k va vb pa pb) := by
  unfold ensureEdge
  split
  · exact presMono_refl m
  · exact ⟨fun _ h => h, fun k2 h => aset_preserves_isSome _ _ _ _ h, fun _ h => h⟩

theorem addFaceToEdge_ok_presMono (m : Navmesh) (k : EKey) (f : FKey) (m2 : Navmesh)
    (h : addFaceToEdge m k f = .ok m2) : presMono m m2 := by
  obtain ⟨_, _, hfaces, hverts, hedges⟩ := addFaceToEdge_ok_spec m k f m2 h
  exact ⟨fun k2 hk => by rw [hverts]; exact hk, hedges, fun k2 hk => by rw [hfaces]; exact hk⟩

theorem addFaceToEdge_error_state (m : Navmesh) (k : EKey) (f : FKey) (err : NavErr)
    (m2 : Navmesh) (h : addFaceToEdge m k f = .error (err, m2)) : m2 = m := by
  unfold addFaceToEdge at h
  split at h
  · simp only [Except.error.injEq, Prod.mk.injEq] at h
    exact h.2.symm
  · rename_i e he
    rcases Edge.add_cases e f with ⟨hl, hadd⟩ | ⟨f0, hl, hr, hadd⟩ | ⟨f0, f1, hl, hr, hadd⟩ <;>
      rw [hadd] at h
    · exact absurd h (by simp)
    · exact absurd h (by simp)
    · simp only [Except.error.injEq, Prod.mk.injEq] at h
      exact h.2.symm

theorem processTri_presMono (m0 : Navmesh) (a b c : ℕ) (positions : List ℚ) :
    ∀ r, processTri m0 a b c positions = r →
      (∀ m2, r = .ok m2 → presMono m0 m2) ∧
      (∀ err m2, r = .error (err, m2) → presMono m0 m2) := by
  intro r hr
  unfold processTri at hr
  dsimp only at hr
  generalize hr1 : ensureVertex m0 a positions = r1 at hr
  generalize hr2 : ensureVertex r1.1 b positions = r2 at hr
  generalize hr3 : ensureVertex r2.1 c positions = r3 at hr
  generalize hm4 : ensureEdge r3.1 (key2 (a * 3) (b * 3)) a b r1.2 r2.2 = m4 at hr
  generalize hm5 : ensureEdge m4 (key2 (b * 3) (c * 3)) b c r2.2 r3.2 = m5 at hr
  generalize hm6 : ensureEdge m5 (key2 (c * 3) (a * 3)) c a r3.2 r1.2 = m6 at hr
  have ha1 : presMono m0 r1.1 := by
    rw [← hr1]; exact ensureVertex_presMono _ _ _
  have ha2 : presMono m0 r2.1 := presMono_trans _ _ _ ha1
    (by rw [← hr2]; exact ensureVertex_presMono _ _ _)
  have ha3 : presMono m0 r3.1 := presMono_trans _ _ _ ha2
    (by rw [← hr3]; exact ensureVertex_presMono _ _ _)
  have ha4 : presMono m0 m4 := presMono_trans _ _ _ ha3
    (by rw [← hm4]; exact ensureEdge_presMono _ _ _ _ _ _)
  have ha5 : presMono m0 m5 := presMono_trans _ _ _ ha4
    (by rw [← hm5]; exact ensureEdge_presMono _ _ _ _ _ _)
  have hmono6 : presMono m0 m6 := presMono_trans _ _ _ ha5
    (by rw [← hm6]; exact ensureEdge_presMono _ _ _ _ _ _)
  cases hA1 : addFaceToEdge m6 (key2 (a * 3) (b * 3)) (key3 (a * 3) (b * 3) (c * 3)) with
  | error e =>
    obtain ⟨ep, me⟩ := e
    rw [hA1] at hr
    have hst := addFaceToEdge_error_state _ _ _ _ _ hA1
    subst hst
    constructor
    · intro m2 hm2
      rw [← hr] at hm2
      exact absurd hm2 (by simp)
    · intro err m2 hm2
      rw [← hr] at hm2
      simp only [Except.error.injEq, Prod.mk.injEq] at hm2
      rw [← hm2.2]
      exact hmono6
  | ok m7 =>
    rw [hA1] at hr
    dsimp only at hr
    have hmono7 := presMono_trans _ _ _ hmono6 (addFaceToEdge_ok_presMono _ _ _ _ hA1)
    cases hA2 : addFaceToEdge m7 (key2 (b * 3) (c * 3)) (key3 (a * 3) (b * 3) (c * 3)) with
    | error e =>
      obtain ⟨ep, me⟩ := e
      rw [hA2] at hr
      have hst := addFaceToEdge_error_state _ _ _ _ _ hA2
      subst hst
      constructor
      · intro m2 hm2
        rw [← hr] at hm2
        exact absurd hm2 (by simp)
      · intro err m2 hm2
        rw [← hr] at hm2
        simp only [Except.error.injEq, Prod.mk.injEq] at hm2
        rw [← hm2.2]
        exact hmono7
    | ok m8 =>
      rw [hA2] at hr
      dsimp only at hr
      have hmono8 := presMono_trans _ _ _ hmono7 (addFaceToEdge_ok_presMono _ _ _ _ hA2)
      cases hA3 : addFaceToEdge m8 (key2 (c * 3) (a * 3)) (key3 (a * 3) (b * 3) (c * 3)) with
      | error e =>
        obtain ⟨ep, me⟩ := e
        rw [hA3] at hr
        have hst := addFaceToEdge_error_state _ _ _ _ _ hA3
        subst hst
        constructor
        · intro m2 hm2
          rw [← hr] at hm2
          exact absurd hm2 (by simp)
        · intro err m2 hm2
          rw [← hr] at hm2
          simp only [Except.error.injEq, Prod.mk.injEq] at hm2
          rw [← hm2.2]
          exact hmono8
      | ok m9 =>
        rw [hA3] at hr
        dsimp only at hr
        have hmono9 := presMono_trans _ _ _ hmono8 (addFaceToEdge_ok_presMono _ _ _ _ hA3)
        constructor
        · intro m2 hm2
          rw [← hr] at hm2
          simp only [Except.ok.injEq] at hm2
          rw [← hm2]
          refine presMono_trans _ _ _ hmono9 ⟨fun _ h => h, fun _ h => h, ?_⟩
          intro k2 hk
          exact aset_preserves_isSome _ _ _ _ hk
        · intro err m2 hm2
          rw [← hr] at hm2
          exact absurd hm2 (by simp)

theorem buildLoop_presMono (positions : List ℚ) : ∀ (n : ℕ) (indices : List ℕ),
    indices.length ≤ n → ∀ (m : Navmesh) (r : Except (NavErr × Navmesh) Navmesh),
    buildLoop m indices positions = r →
    (∀ m2, r = .ok m2 → presMono m m2) ∧ (∀ err m2, r = .error (err, m2) → presMono m m2) := by
  intro n
  induction n with
  | zero =>
    intro indices hlen m r hr
    have hnil : indices = [] := List.length_eq_zero.mp (Nat.le_zero.mp hlen)
    subst hnil
    simp only [buildLoop] at hr
    constructor
    · intro m2 hm2
      rw [← hr] at hm2
      simp only [Except.ok.injEq] at hm2
      rw [← hm2]
      exact presMono_refl m
    · intro err m2 hm2
      rw [← hr] at hm2
      exact absurd hm2 (by simp)
  | succ n ih =>
    intro indices hlen m r hr
    match indices with
    | [] =>
      simp only [buildLoop] at hr
      constructor
      · intro m2 hm2
        rw [← hr] at hm2
        simp only [Except.ok.injEq] at hm2
        rw [← hm2]
        exact presMono_refl m
      · intro err m2 hm2
        rw [← hr] at hm2
        exact absurd hm2 (by simp)
    | [a] =>
      simp only [buildLoop] at hr
      constructor
      · intro m2 hm2
        rw [← hr] at hm2
        simp only [Except.ok.injEq] at hm2
        rw [← hm2]
        exact presMono_refl m
      · intro err m2 hm2
        rw [← hr] at hm2
        exact absurd hm2 (by simp)
    | [a, b] =>
      simp only [buildLoop] at hr
      constructor
      · intro m2 hm2
        rw [← hr] at hm2
        simp only [Except.ok.injEq] at hm2
        rw [← hm2]
        exact presMono_refl m
      · intro err m2 hm2
        rw [← hr] at hm2
        exact absurd hm2 (by simp)
    | a :: b :: c :: rest =>
      have hlen2 : rest.length ≤ n := by
        simp only [List.length_cons] at hlen
        omega
      cases hpt : processTri m a b c positions with
      | ok mt =>
        have hmt : presMono m mt := (processTri_presMono m a b c positions _ hpt).1 mt rfl
        have hstep : buildLoop m (a :: b :: c :: rest) positions =
            buildLoop mt rest positions := by
          simp only [buildLoop, hpt]
        rw [hstep] at hr
        obtain ⟨hok, herr⟩ := ih rest hlen2 mt r hr
        exact ⟨fun m2 hm2 => presMono_trans _ _ _ hmt (hok m2 hm2),
          fun err m2 hm2 => presMono_trans _ _ _ hmt (herr err m2 hm2)⟩
      | error e =>
        obtain ⟨ep, me⟩ := e
        have hme : presMono m me := (processTri_presMono m a b c positions _ hpt).2 ep me rfl
        have hstep : buildLoop m (a :: b :: c :: rest) positions = .error (ep, me) := by
          simp only [buildLoop, hpt]
        rw [hstep] at hr
        constructor
        · intro m2 hm2
          rw [← hr] at hm2
          exact absurd hm2 (by simp)
        · intro err m2 hm2
          rw [← hr] at hm2
          simp only [Except.error.injEq, Prod.mk.injEq] at hm2
          rw [← hm2.2]
          exact hme

/-- C5 (amended): a `build` call that fails with an error does *not* leave the
tables as they were — it mutates in place and performs no rollback (see the
counterexample) — but it never removes entries: every vertex, edge and face key
present before the call is still present in the state carried by the error, so
the only safe discipline is the one the spec names, running `build` once on an
empty graph. -/
theorem c5_partial_build_amended (m : Navmesh) (indices : List ℕ) (positions : List ℚ)
    (err : NavErr) (m2 : Navmesh)
    (h : Navmesh.build m indices positions = .error (err, m2)) :
    (∀ k, (findA m.verticies k).isSome → (findA m2.verticies k).isSome) ∧
    (∀ k, (findA m.edges k).isSome → (findA m2.edges k).isSome) ∧
    (∀ k, (findA m.faces k).isSome → (findA m2.faces k).isSome) :=
  (buildLoop_presMono positions indices.length indices le_rfl m _ h).2 err m2 rfl

/-- C7: in a walk iteration with a negative barycentric component, the crossed
edge is the face's edge opposite the corresponding vertex — the scan pairs
`x↔pa`, `y↔pb`, `z↔pc` and `find_opposide_edge` returns an edge not containing
that vertex (conjunct 1); an untested negative-`x` component selects that edge
and crosses to its other incident face, or hits the boundary (conjunct 2); an
edge already tested in the same walk is skipped in favour of the remaining
negative components (conjunct 3), as is a non-negative component (conjunct 4);
and a `cross` outcome reassigns the point's face to the neighbour and re-runs
the next iteration with the *original* working target `np`, not the face-local
projection (conjunct 5). -/
theorem c7_crossing_step :
    (∀ (m : Navmesh) (f : Face) (v : ℕ) (k : EKey) (e : Edge),
      find_opposide_edge m f v = some (k, e) →
      edgeHas e v = false ∧ (k = f.ea ∨ k = f.eb ∨ k = f.ec)) ∧
    (∀ (m : Navmesh) (fk : FKey) (f : Face) (bc : V3) (tested : List EKey) (k : EKey) (e : Edge),
      bc.x < 0 → find_opposide_edge m f f.pa = some (k, e) → k ∉ tested →
      walkScan m fk f bc tested =
        match edgeOther e fk with
        | some f2 => ScanOut.cross (tested ++ [k]) f2
        | none => ScanOut.boundary (tested ++ [k]) e) ∧
    (∀ (m : Navmesh) (fk : FKey) (f : Face) (bc : V3) (tested : List EKey) (k : EKey) (e : Edge),
      bc.x < 0 → find_opposide_edge m f f.pa = some (k, e) → k ∈ tested →
      walkScan m fk f bc tested = scanGo m fk f [(bc.y, f.pb), (bc.z, f.pc)] tested) ∧
    (∀ (m : Navmesh) (fk : FKey) (f : Face) (bc : V3) (tested : List EKey),
      ¬ bc.x < 0 →
      walkScan m fk f bc tested = scanGo m fk f [(bc.y, f.pb), (bc.z, f.pc)] tested) ∧
    (∀ (m : Navmesh) (fuel : ℕ) (p : NavmeshPoint) (np : V3) (tested : List EKey) (dl : ℕ)
      (face : Face) (tested2 : List EKey) (f2 : FKey), dl ≤ 10 →
      findFace m p.face = some face →
      walkScan m p.face face (get_barycentric_coordinates face.paPos face.pbPos face.pcPos
        (project_on_plane np face.paPos face.normal)) tested = .cross tested2 f2 →
      moveLoop m (fuel + 1) p np tested dl =
        moveLoop m fuel { p with face := f2 } np tested2 dl) := by
  refine ⟨?_, ?_, ?_, ?_, ?_⟩
  · intro m f v k e h
    obtain ⟨_, h2, h3⟩ := find_opposide_edge_spec m f v k e h
    exact ⟨h2, h3⟩
  · intro m fk f bc tested k e hx hfoe hmem
    rw [walkScan]
    simp only [scanGo]
    rw [if_pos hx, hfoe]
    dsimp only
    rw [if_neg hmem]
  · intro m fk f bc tested k e hx hfoe hmem
    rw [walkScan]
    simp only [scanGo]
    rw [if_pos hx, hfoe]
    dsimp only
    rw [if_pos hmem]
  · intro m fk f bc tested hx
    rw [walkScan]
    simp only [scanGo]
    rw [if_neg hx]
  · intro m fuel p np tested dl face tested2 f2 hdl hface hscan
    conv_lhs => rw [moveLoop]
    rw [hface]
    dsimp only
    rw [hscan]
    dsimp only
    rw [if_neg (not_lt.mpr hdl)]

theorem V3.dot_self_zero (v : V3) (h : V3.dot v v = 0) : v.x = 0 ∧ v.y = 0 ∧ v.z = 0 := by
  unfold V3.dot at h
  refine ⟨?_, ?_, ?_⟩ <;> nlinarith [sq_nonneg v.x, sq_nonneg v.y, sq_nonneg v.z]

theorem clamp_quadratic (dd e : ℚ) (hdd : 0 ≤ dd) (hz : dd = 0 → e = 0) (t : ℚ)
    (h0 : 0 ≤ t) (h1 : t ≤ 1) :
    dd * clampq 0 1 (e / dd) ^ 2 - 2 * e * clampq 0 1 (e / dd) ≤ dd * t ^ 2 - 2 * e * t := by
  rcases eq_or_lt_of_le hdd with heq | hpos
  · rw [hz heq.symm, ← heq]
    simp
  · have hne : dd ≠ 0 := ne_of_gt hpos
    have hes : e = e / dd * dd := by field_simp
    generalize hsv : e / dd = s at hes ⊢
    subst hes
    rcases le_or_lt s 0 with hs | hs
    · have hc : clampq 0 1 s = 0 := by
        unfold clampq
        rw [min_eq_right (le_trans hs zero_le_one), max_eq_left hs]
      rw [hc]
      nlinarith [mul_nonneg (mul_nonneg hpos.le h0) h0,
        mul_nonneg (mul_nonneg (neg_nonneg.mpr hs) hpos.le) h0]
    · rcases le_or_lt 1 s with hs1 | hs1
      · have hc : clampq 0 1 s = 1 := by
          unfold clampq
          rw [min_eq_left hs1, max_eq_right zero_le_one]
        rw [hc]
        nlinarith [mul_nonneg (mul_nonneg hpos.le (sub_nonneg.mpr h1)) (sub_nonneg.mpr hs1),
          mul_nonneg (mul_nonneg hpos.le (sub_nonneg.mpr h1)) (sub_nonneg.mpr h1)]
      · have hc : clampq 0 1 s = s := by
          unfold clampq
          rw [min_eq_right hs1.le, max_eq_right hs.le]
        rw [hc]
        nlinarith [mul_nonneg hpos.le (sq_nonneg (t - s))]

theorem V3.dot_self_nonneg (v : V3) : 0 ≤ V3.dot v v := by
  unfold V3.dot
  nlinarith [sq_nonneg v.x, sq_nonneg v.y, sq_nonneg v.z]

theorem distSq_line_expand (a b q : V3) (t : ℚ) :
    distSq (V3.add a (V3.smul t (V3.sub b a))) q =
      V3.dot (V3.sub b a) (V3.sub b a) * t ^ 2 -
        2 * V3.dot (V3.sub q a) (V3.sub b a) * t + distSq a q := by
  unfold distSq V3.add V3.smul V3.sub V3.dot
  ring

/-- C8: when the scan selects a boundary edge (no second incident face), the
iteration replaces the working target by `project_on_line` of the plane-projected
target onto that edge and repeats on the *same* face (the point `p` is passed
unchanged to the next iteration — conjunct 1); `project_on_line` yields the
nearest point of the closed segment, not of the infinite line: it lies on the
segment (conjunct 3) and its squared distance to the query is minimal among all
segment points (conjunct 2). -/
theorem c8_boundary_clamp :
    (∀ (m : Navmesh) (fuel : ℕ) (p : NavmeshPoint) (np : V3) (tested : List EKey) (dl : ℕ)
      (face : Face) (tested2 : List EKey) (e : Edge), dl ≤ 10 →
      findFace m p.face = some face →
      walkScan m p.face face (get_barycentric_coordinates face.paPos face.pbPos face.pcPos
        (project_on_plane np face.paPos face.normal)) tested = .boundary tested2 e →
      moveLoop m (fuel + 1) p np tested dl =
        moveLoop m fuel p (project_on_line e.aPos e.bPos
          (project_on_plane np face.paPos face.normal)) tested2 dl) ∧
    (∀ (a b q : V3) (t : ℚ), 0 ≤ t → t ≤ 1 →
      distSq (project_on_line a b q) q ≤ distSq (V3.add a (V3.smul t (V3.sub b a))) q) ∧
    (∀ a b q : V3, ∃ t, 0 ≤ t ∧ t ≤ 1 ∧
      project_on_line a b q = V3.add a (V3.smul t (V3.sub b a))) := by
  refine ⟨?_, ?_, ?_⟩
  · intro m fuel p np tested dl face tested2 e hdl hface hscan
    conv_lhs => rw [moveLoop]
    rw [hface]
    dsimp only
    rw [hscan]
    dsimp only
    rw [if_neg (not_lt.mpr hdl)]
  · intro a b q t h0 h1
    have hexp : project_on_line a b q = V3.add a (V3.smul
        (clampq 0 1 (V3.dot (V3.sub q a) (V3.sub b a) / V3.dot (V3.sub b a) (V3.sub b a)))
        (V3.sub b a)) := rfl
    rw [hexp, distSq_line_expand, distSq_line_expand]
    have hdd := V3.dot_self_nonneg (V3.sub b a)
    have hz : V3.dot (V3.sub b a) (V3.sub b a) = 0 →
        V3.dot (V3.sub q a) (V3.sub b a) = 0 := by
      intro hd
      obtain ⟨hx, hy, hzz⟩ := V3.dot_self_zero _ hd
      unfold V3.dot
      rw [hx, hy, hzz]
      ring
    have hq := clamp_quadratic (V3.dot (V3.sub b a) (V3.sub b a))
      (V3.dot (V3.sub q a) (V3.sub b a)) hdd hz t h0 h1
    linarith
  · intro a b q
    refine ⟨clampq 0 1 (V3.dot (V3.sub q a) (V3.sub b a) / V3.dot (V3.sub b a) (V3.sub b a)),
      ?_, ?_, rfl⟩
    · exact le_max_left 0 _
    · exact max_le zero_le_one (min_le_left 1 _)

/-- C1 (amended): after a `move` call that returns normally, the point's stored
world position always equals the barycentric-to-Cartesian reconstruction from
its stored coordinates and its bound face (and the stored coordinates are the
barycentric coordinates of the final working target's plane projection); but
the stored barycentric coordinates need *not* all be `≥ 0`: a component is only
guaranteed non-negative when its opposite edge was not already in the walk's
visited-edge set — a negative component whose opposite edge was already tested
is committed as-is (see the counterexample). -/
theorem c1_commit_invariant_amended (m : Navmesh) (id : String) (np : V3) (m1 : Navmesh)
    (w : V3) (h : Navmesh.move m id np = .ok m1 w) :
    ∃ p0 p1 np1 tested1, findA m.points id = some p0 ∧
      moveLoop m (m.edges.length + 1) p0 np [] 0 = .ok p1 np1 tested1 ∧
      m1 = { m with points := aset m.points id p1 } ∧
      findA m1.points id = some p1 ∧ w = p1.worldpos ∧
      ∃ f1, findFace m p1.face = some f1 ∧
        p1.bcpos = get_barycentric_coordinates f1.paPos f1.pbPos f1.pcPos
          (project_on_plane np1 f1.paPos f1.normal) ∧
        p1.worldpos = barycentric_to_cartesian f1.paPos f1.pbPos f1.pcPos p1.bcpos ∧
        (∀ q v, (q, v) ∈ [(p1.bcpos.x, f1.pa), (p1.bcpos.y, f1.pb), (p1.bcpos.z, f1.pc)] →
          0 ≤ q ∨ ∃ k e, find_opposide_edge m f1 v = some (k, e) ∧ k ∈ tested1) := by
  unfold Navmesh.move at h
  split at h
  · exact absurd h (by simp)
  · rename_i p0 hp0
    split at h
    · rename_i p2 np2 t2 hloop
      simp only [MoveOut.ok.injEq] at h
      obtain ⟨hm1, hw⟩ := h
      obtain ⟨hid, hsub, f, hff, hbc, hwp, hprop⟩ :=
        moveLoop_ok_inv m (m.edges.length + 1) p0 np [] 0 p2 np2 t2 hloop
      refine ⟨p0, p2, np2, t2, hp0, hloop, hm1.symm, ?_, hw.symm, f, hff, hbc, hwp, hprop⟩
      rw [← hm1]
      exact findA_aset_self _ _ _
    · exact absurd h (by simp)
    · exact absurd h (by simp)
    · exact absurd h (by simp)

/-- C9 (amended): a second `move(id, p)` immediately after a committed first
`move(id, p)` is a no-op — it returns the same state and position — *provided*
the first call ended on the face it started on (pure in-face or boundary-clamp
moves), or the first call committed all-non-negative barycentric coordinates
for the projection of the original target `p` onto the final face (face
crossings without clamping).  Without such a proviso the claim is false: after
a tested-edge skip committed a negative coordinate, the second call re-crosses
the shared edge and moves the point again (see the counterexample). -/
theorem c9_idempotent_amended (m : Navmesh) (id : String) (np : V3) (m1 : Navmesh) (w1 : V3)
    (p0 p1 : NavmeshPoint)
    (hp0 : findA m.points id = some p0)
    (h1 : Navmesh.move m id np = .ok m1 w1)
    (hp1 : findA m1.points id = some p1)
    (hcase : p1.face = p0.face ∨
      (∃ f1, findFace m p1.face = some f1 ∧
        p1.bcpos = get_barycentric_coordinates f1.paPos f1.pbPos f1.pcPos
          (project_on_plane np f1.paPos f1.normal) ∧
        0 ≤ p1.bcpos.x ∧ 0 ≤ p1.bcpos.y ∧ 0 ≤ p1.bcpos.z)) :
    Navmesh.move m1 id np = .ok m1 w1 := by
  unfold Navmesh.move at h1
  rw [hp0] at h1
  dsimp only at h1
  cases hloop : moveLoop m (m.edges.length + 1) p0 np [] 0 with
  | deadlockError => rw [hloop] at h1; exact absurd h1 (by simp)
  | outOfFuel => rw [hloop] at h1; exact absurd h1 (by simp)
  | crash => rw [hloop] at h1; exact absurd h1 (by simp)
  | ok p2 np2 t2 =>
    rw [hloop] at h1
    dsimp only at h1
    simp only [MoveOut.ok.injEq] at h1
    obtain ⟨hm1, hw⟩ := h1
    obtain ⟨hid, hsub, f, hff, hbc, hwp, hprop⟩ :=
      moveLoop_ok_inv m (m.edges.length + 1) p0 np [] 0 p2 np2 t2 hloop
    have hpts : findA m1.points id = some p2 := by
      rw [← hm1]
      exact findA_aset_self _ _ _
    have hp12 : p2 = p1 := by
      rw [hpts] at hp1
      exact Option.some.inj hp1
    subst hp12
    subst hm1
    have hfuel : ({ m with points := aset m.points id p2 } : Navmesh).edges.length + 1 =
        m.edges.length + 1 := rfl
    have hstep : moveLoop { m with points := aset m.points id p2 }
        (m.edges.length + 1) p2 np [] 0 = .ok p2 np2 t2 ∨
        ∃ np3, moveLoop { m with points := aset m.points id p2 }
          (m.edges.length + 1) p2 np [] 0 = .ok p2 np3 [] := by
      rcases hcase with hfc | ⟨f1, hf1, hbc1, hx, hy, hz⟩
      · left
        rw [moveLoop_congr_tables { m with points := aset m.points id p2 } m rfl rfl,
          moveLoop_congr_point m _ p2 p0 np [] 0 hfc hid]
        exact hloop
      · right
        refine ⟨np, ?_⟩
        have hf : f = f1 := by
          rw [hff] at hf1
          exact Option.some.inj hf1
        subst hf
        have hff2 : findFace { m with points := aset m.points id p2 } p2.face = some f :=
          hf1
        have hsc : walkScan { m with points := aset m.points id p2 } p2.face f
            (get_barycentric_coordinates f.paPos f.pbPos f.pcPos
              (project_on_plane np f.paPos f.normal)) [] = .settled [] := by
          rw [walkScan, ← hbc1]
          apply scanGo_of_nonneg
          intro q v hm2
          simp only [List.mem_cons, List.not_mem_nil, or_false] at hm2
          rcases hm2 with h | h | h <;>
            (injection h with ha hb; subst ha) <;> assumption
        conv_lhs => rw [moveLoop]
        rw [hff2]
        dsimp only
        rw [hsc]
        dsimp only
        rw [if_neg (by norm_num : ¬ (0 : ℕ) > 10)]
        have hcommit : ({ p2 with
            bcpos := get_barycentric_coordinates f.paPos f.pbPos f.pcPos
              (project_on_plane np f.paPos f.normal),
            worldpos := barycentric_to_cartesian f.paPos f.pbPos f.pcPos
              (get_barycentric_coordinates f.paPos f.pbPos f.pcPos
                (project_on_plane np f.paPos f.normal)) } : NavmeshPoint) = p2 := by
          rw [← hbc1, ← hwp]
        rw [hcommit]
    unfold Navmesh.move
    rw [hpts]
    dsimp only
    rcases hstep with hs | ⟨np3, hs⟩ <;> rw [hs] <;> dsimp only <;>
      rw [aset_of_findA_eq _ _ _ hpts, ← hw]

/-! ### Evaluation lemmas for the concrete instances -/

theorem foldReg_eq : foldReg = foldRegLit := by
  norm_num [foldReg, foldRegLit, foldBuilt, buildD, Navmesh.build, buildLoop, processTri,
    ensureVertex, ensureEdge, addFaceToEdge, Edge.add, findVert, findEdge, findFace, findA,
    aset, key2, key3, Navmesh.init, Navmesh.register, registerGo, project_on_plane,
    get_barycentric_coordinates, triangle_normal, V3.sub, V3.add, V3.dot, V3.cross, V3.smul,
    distSq, foldIdx, foldPos, foldVerts, foldEdges, foldFaces, foldPoint0]
  all_goals rfl

theorem quadReg_eq : quadReg = quadRegLit := by
  norm_num [quadReg, quadRegLit, quadBuilt, buildD, Navmesh.build, buildLoop, processTri,
    ensureVertex, ensureEdge, addFaceToEdge, Edge.add, findVert, findEdge, findFace, findA,
    aset, key2, key3, Navmesh.init, Navmesh.register, registerGo, project_on_plane,
    get_barycentric_coordinates, triangle_normal, V3.sub, V3.add, V3.dot, V3.cross, V3.smul,
    distSq, quadIdx, quadPos, quadVerts, quadEdges, quadFaces, quadF1, quadF2, quadPoint0]
  all_goals rfl

theorem foldMove1_eq :
    Navmesh.move foldRegLit "p0" ⟨1, -1, 0⟩ = .ok foldM1 ⟨1, -1/5, -2/5⟩ := by
  norm_num [Navmesh.move, moveLoop, walkScan, scanGo, find_opposide_edge, edgeHas,
    edgeOther, findFace, findEdge, findA, aset, foldRegLit, foldM1, foldVerts, foldEdges,
    foldFaces, foldPoint0, foldP1, project_on_plane, get_barycentric_coordinates,
    barycentric_to_cartesian, project_on_line, clampq, V3.sub, V3.add, V3.dot, V3.cross,
    V3.smul]

theorem foldMove2_eq :
    Navmesh.move foldM1 "p0" ⟨1, -1, 0⟩ = .ok foldM2 ⟨1, -1, 0⟩ := by
  norm_num [Navmesh.move, moveLoop, walkScan, scanGo, find_opposide_edge, edgeHas,
    edgeOther, findFace, findEdge, findA, aset, foldM1, foldM2, foldVerts, foldEdges,
    foldFaces, foldP1, foldP2, project_on_plane, get_barycentric_coordinates,
    barycentric_to_cartesian, project_on_line, clampq, V3.sub, V3.add, V3.dot, V3.cross,
    V3.smul]

theorem quadMoveSame_eq :
    Navmesh.move quadRegLit "p0" ⟨2/3, 1/3, 0⟩ = .ok quadRegLit ⟨2/3, 1/3, 0⟩ := by
  norm_num [Navmesh.move, moveLoop, walkScan, scanGo, find_opposide_edge, edgeHas,
    edgeOther, findFace, findEdge, findA, aset, quadRegLit, quadVerts, quadEdges, quadFaces,
    quadF1, quadF2, quadPoint0, project_on_plane, get_barycentric_coordinates,
    barycentric_to_cartesian, project_on_line, clampq, V3.sub, V3.add, V3.dot, V3.cross,
    V3.smul]

theorem c5wBuild_eq :
    Navmesh.build quadRegLit extIdx extPos = .error (.topologyError, c5wState) := by
  norm_num [Navmesh.build, buildLoop, processTri, ensureVertex, ensureEdge, addFaceToEdge,
    Edge.add, findVert, findEdge, findFace, findA, aset, key2, key3, quadRegLit, quadVerts,
    quadEdges, quadFaces, quadF1, quadF2, quadPoint0, c5wState, extIdx, extPos,
    triangle_normal, V3.sub, V3.add, V3.dot, V3.cross, V3.smul, distSq]

theorem quadClamp_eq :
    Navmesh.move quadRegLit "p0" ⟨5, 5, 0⟩ = .ok quadClampM1 ⟨1, 1, 0⟩ := by
  norm_num [Navmesh.move, moveLoop, walkScan, scanGo, find_opposide_edge, edgeHas,
    edgeOther, findFace, findEdge, findA, aset, quadRegLit, quadClampM1, quadVerts,
    quadEdges, quadFaces, quadF1, quadF2, quadPoint0, quadClampP1, project_on_plane,
    get_barycentric_coordinates, barycentric_to_cartesian, project_on_line, clampq,
    V3.sub, V3.add, V3.dot, V3.cross, V3.smul]

/-! ### Claim counterexamples and witnesses on the concrete meshes -/

/-- C1 counterexample: on the fold mesh, `move` from the registered point toward
`(1,-1,0)` returns normally, yet the committed point (bound to the second face)
stores the barycentric coordinates `(3/5, 3/5, -1/5)` — the `z` component is
negative, contradicting the claim that all stored components are `≥ 0` after a
normal return. -/
theorem c1_counterexample :
    Navmesh.move foldReg "p0" ⟨1, -1, 0⟩ = .ok foldM1 ⟨1, -1/5, -2/5⟩ ∧
    findA foldM1.points "p0" = some foldP1 ∧
    foldP1.bcpos.z < 0 ∧ foldP1.face = (12, 0) := by
  refine ⟨?_, rfl, by norm_num [foldP1], rfl⟩
  rw [foldReg_eq]
  exact foldMove1_eq

/-- C1 witness: the amended invariant instantiated on the quad mesh, where a
`move` to the point's own position commits immediately. -/
theorem c1_commit_invariant_amended_witness :
    Navmesh.move quadRegLit "p0" ⟨2/3, 1/3, 0⟩ = .ok quadRegLit ⟨2/3, 1/3, 0⟩ ∧
    (∃ p0 p1 np1 tested1, findA quadRegLit.points "p0" = some p0 ∧
      moveLoop quadRegLit (quadRegLit.edges.length + 1) p0 ⟨2/3, 1/3, 0⟩ [] 0 =
        .ok p1 np1 tested1 ∧
      quadRegLit = { quadRegLit with points := aset quadRegLit.points "p0" p1 } ∧
      findA quadRegLit.points "p0" = some p1 ∧ (⟨2/3, 1/3, 0⟩ : V3) = p1.worldpos ∧
      ∃ f1, findFace quadRegLit p1.face = some f1 ∧
        p1.bcpos = get_barycentric_coordinates f1.paPos f1.pbPos f1.pcPos
          (project_on_plane np1 f1.paPos f1.normal) ∧
        p1.worldpos = barycentric_to_cartesian f1.paPos f1.pbPos f1.pcPos p1.bcpos ∧
        (∀ q v, (q, v) ∈ [(p1.bcpos.x, f1.pa), (p1.bcpos.y, f1.pb), (p1.bcpos.z, f1.pc)] →
          0 ≤ q ∨ ∃ k e, find_opposide_edge quadRegLit f1 v = some (k, e) ∧ k ∈ tested1)) :=
  ⟨quadMoveSame_eq,
    c1_commit_invariant_amended quadRegLit "p0" ⟨2/3, 1/3, 0⟩ quadRegLit ⟨2/3, 1/3, 0⟩
      quadMoveSame_eq⟩

/-- C2 witness: the general visited-edge bound instantiated on the quad mesh
(5 edges, so 6 iterations of fuel suffice from an empty visited set). -/
theorem c2_walk_terminates_witness :
    untestedCount quadRegLit [] < 6 ∧
    moveLoop quadRegLit 6 quadPoint0 ⟨5, 5, 0⟩ [] 0 ≠ .outOfFuel :=
  ⟨by decide, c2_walk_terminates.2 quadRegLit 6 quadPoint0 ⟨5, 5, 0⟩ [] 0 (by decide)⟩

/-- C4 witness: three triangles sharing the undirected edge `{0, 1}` make its
hash key occur three times, and `build` rejects the mesh with the
`TopologyError`. -/
theorem c4_nonmanifold_rejected_witness :
    3 ≤ edgeKeyOcc badIdx (3, 0) ∧
    (∃ m2, Navmesh.build Navmesh.init badIdx badPos = .error (.topologyError, m2)) :=
  ⟨by decide, c4_nonmanifold_rejected.2 badIdx badPos (3, 0) (by decide)⟩

/-- C5 counterexample: `build` on the non-manifold input fails with the
`TopologyError`, yet the state observably mutated: the failed call (started on
the empty mesh) leaves 5 vertices, 7 edges and 2 faces behind. -/
theorem c5_counterexample :
    buildErrKind (Navmesh.build Navmesh.init badIdx badPos) = some .topologyError ∧
    (buildD Navmesh.init badIdx badPos).verticies.length = 5 ∧
    (buildD Navmesh.init badIdx badPos).edges.length = 7 ∧
    (buildD Navmesh.init badIdx badPos).faces.length = 2 ∧
    Navmesh.init.verticies = [] ∧ Navmesh.init.edges = [] ∧ Navmesh.init.faces = [] := by
  refine ⟨?_, ?_, ?_, ?_, rfl, rfl, rfl⟩ <;>
    norm_num [buildErrKind, buildD, Navmesh.build, buildLoop, processTri, ensureVertex,
      ensureEdge, addFaceToEdge, Edge.add, findVert, findEdge, findFace, findA, aset, key2,
      key3, Navmesh.init, badIdx, badPos, triangle_normal, V3.sub, V3.add, V3.dot, V3.cross,
      V3.smul, distSq]

/-- C5 witness: the amended preservation statement instantiated on a failing
`build` on top of the already-built quad: the quad's face key is still present
in the state carried by the error. -/
theorem c5_partial_build_amended_witness :
    Navmesh.build quadRegLit extIdx extPos = .error (.topologyError, c5wState) ∧
    (findA quadRegLit.faces (9, 0)).isSome ∧
    (findA c5wState.faces (9, 0)).isSome :=
  ⟨c5wBuild_eq, by decide,
    (c5_partial_build_amended quadRegLit extIdx extPos .topologyError c5wState
      c5wBuild_eq).2.2 (9, 0) (by decide)⟩

/-- C7 witness: the crossing rules instantiated on the quad mesh — the resolver
picks the edge opposite `pa` (the edge `{1,2}`, which does not contain vertex
0); an untested negative-`x` component selects it (a boundary edge here); a
tested one is skipped; a non-negative `x` moves on to the `y`/`z` components;
and a `cross` outcome (component `y` negative, shared edge `{0,2}`) reassigns
the face to the second quad triangle and keeps the original target. -/
theorem c7_crossing_step_witness :
    (find_opposide_edge quadRegLit quadF1 0 =
        some ((9, 18), ⟨1, 2, ⟨1, 0, 0⟩, ⟨1, 1, 0⟩, some (9, 0), none, 1⟩) ∧
      edgeHas (⟨1, 2, ⟨1, 0, 0⟩, ⟨1, 1, 0⟩, some (9, 0), none, 1⟩ : Edge) 0 = false ∧
      ((9, 18) = quadF1.ea ∨ (9, 18) = quadF1.eb ∨ (9, 18) = quadF1.ec)) ∧
    walkScan quadRegLit (9, 0) quadF1 ⟨-1, 2, 1⟩ [] =
      .boundary [(9, 18)] ⟨1, 2, ⟨1, 0, 0⟩, ⟨1, 1, 0⟩, some (9, 0), none, 1⟩ ∧
    walkScan quadRegLit (9, 0) quadF1 ⟨-1, 2, 1⟩ [(9, 18)] =
      scanGo quadRegLit (9, 0) quadF1 [(2, 1), (1, 2)] [(9, 18)] ∧
    walkScan quadRegLit (9, 0) quadF1 ⟨1, -1, 1⟩ [] =
      scanGo quadRegLit (9, 0) quadF1 [(-1, 1), (1, 2)] [] ∧
    moveLoop quadRegLit 6 quadPoint0 ⟨0, 2, 0⟩ [] 0 =
      moveLoop quadRegLit 5 { quadPoint0 with face := (15, 0) } ⟨0, 2, 0⟩ [(6, 0)] 0 := by
  refine ⟨⟨by decide, ?_⟩, ?_, ?_, ?_, ?_⟩
  · exact c7_crossing_step.1 quadRegLit quadF1 0 (9, 18)
      ⟨1, 2, ⟨1, 0, 0⟩, ⟨1, 1, 0⟩, some (9, 0), none, 1⟩ (by decide)
  · rw [c7_crossing_step.2.1 quadRegLit (9, 0) quadF1 ⟨-1, 2, 1⟩ [] (9, 18)
      ⟨1, 2, ⟨1, 0, 0⟩, ⟨1, 1, 0⟩, some (9, 0), none, 1⟩ (by decide) (by decide) (by simp)]
    decide
  · exact c7_crossing_step.2.2.1 quadRegLit (9, 0) quadF1 ⟨-1, 2, 1⟩ [(9, 18)] (9, 18)
      ⟨1, 2, ⟨1, 0, 0⟩, ⟨1, 1, 0⟩, some (9, 0), none, 1⟩ (by decide) (by decide) (by simp)
  · exact c7_crossing_step.2.2.2.1 quadRegLit (9, 0) quadF1 ⟨1, -1, 1⟩ [] (by decide)
  · exact c7_crossing_step.2.2.2.2 quadRegLit 5 quadPoint0 ⟨0, 2, 0⟩ [] 0 quadF1 [(6, 0)]
      (15, 0) (by norm_num) (by decide)
      (by norm_num [walkScan, scanGo, find_opposide_edge, edgeHas, edgeOther, findEdge,
        findA, quadRegLit, quadEdges, quadF1, quadPoint0, project_on_plane,
        get_barycentric_coordinates, V3.sub, V3.add, V3.dot, V3.cross, V3.smul])

/-- C8 witness: the boundary clamp instantiated on the quad mesh — moving the
registered point toward `(1/2, -1, 0)` crosses the boundary edge `{0, 1}`, and
the next iteration runs on the same face with the target clamped onto that
segment; plus the nearest-point facts for that segment and query. -/
theorem c8_boundary_clamp_witness :
    moveLoop quadRegLit 6 quadPoint0 ⟨1/2, -1, 0⟩ [] 0 =
      moveLoop quadRegLit 5 quadPoint0
        (project_on_line (⟨0, 0, 0⟩ : V3) (⟨1, 0, 0⟩ : V3)
          (project_on_plane ⟨1/2, -1, 0⟩ quadF1.paPos quadF1.normal)) [(3, 0)] 0 ∧
    distSq (project_on_line ⟨0, 0, 0⟩ ⟨1, 0, 0⟩ ⟨1/2, -1, 0⟩) ⟨1/2, -1, 0⟩ ≤
      distSq (V3.add ⟨0, 0, 0⟩ (V3.smul 1 (V3.sub ⟨1, 0, 0⟩ ⟨0, 0, 0⟩))) ⟨1/2, -1, 0⟩ ∧
    (∃ t, 0 ≤ t ∧ t ≤ 1 ∧ project_on_line (⟨0, 0, 0⟩ : V3) ⟨1, 0, 0⟩ ⟨1/2, -1, 0⟩ =
      V3.add ⟨0, 0, 0⟩ (V3.smul t (V3.sub ⟨1, 0, 0⟩ ⟨0, 0, 0⟩))) := by
  refine ⟨?_, ?_, ?_⟩
  · exact c8_boundary_clamp.1 quadRegLit 5 quadPoint0 ⟨1/2, -1, 0⟩ [] 0 quadF1 [(3, 0)]
      ⟨0, 1, ⟨0, 0, 0⟩, ⟨1, 0, 0⟩, some (9, 0), none, 1⟩ (by norm_num) (by decide)
      (by norm_num [walkScan, scanGo, find_opposide_edge, edgeHas, edgeOther, findEdge,
        findA, quadRegLit, quadEdges, quadF1, quadPoint0, project_on_plane,
        get_barycentric_coordinates, V3.sub, V3.add, V3.dot, V3.cross, V3.smul])
  · exact c8_boundary_clamp.2.1 ⟨0, 0, 0⟩ ⟨1, 0, 0⟩ ⟨1/2, -1, 0⟩ 1 (by norm_num)
      (by norm_num)
  · exact c8_boundary_clamp.2.2 ⟨0, 0, 0⟩ ⟨1, 0, 0⟩ ⟨1/2, -1, 0⟩

/-- C9 counterexample: on the fold mesh, a first `move(id, (1,-1,0))` commits
the point on the second face at `(1, -1/5, -2/5)`; calling `move` again with
the *same* target does not leave the point unchanged — it flips back to the
first face and returns the different position `(1, -1, 0)`. -/
theorem c9_counterexample :
    Navmesh.move foldReg "p0" ⟨1, -1, 0⟩ = .ok foldM1 ⟨1, -1/5, -2/5⟩ ∧
    Navmesh.move foldM1 "p0" ⟨1, -1, 0⟩ = .ok foldM2 ⟨1, -1, 0⟩ ∧
    (findA foldM1.points "p0").map NavmeshPoint.face = some (12, 0) ∧
    (findA foldM2.points "p0").map NavmeshPoint.face = some (9, 0) ∧
    (V3.mk 1 (-1) 0) ≠ V3.mk 1 (-1/5) (-2/5) := by
  refine ⟨?_, foldMove2_eq, rfl, rfl, ?_⟩
  · rw [foldReg_eq]
    exact foldMove1_eq
  · simp only [ne_eq, V3.mk.injEq, not_and]
    intro _ h
    norm_num at h

/-- C9 witness: the amended idempotence instantiated on the quad's boundary
clamp — the first `move` toward `(5,5,0)` stays on the starting face (clamping
to the corner `(1,1,0)`), so the second identical call is a no-op. -/
theorem c9_idempotent_amended_witness :
    findA quadRegLit.points "p0" = some quadPoint0 ∧
    Navmesh.move quadRegLit "p0" ⟨5, 5, 0⟩ = .ok quadClampM1 ⟨1, 1, 0⟩ ∧
    findA quadClampM1.points "p0" = some quadClampP1 ∧
    quadClampP1.face = quadPoint0.face ∧
    Navmesh.move quadClampM1 "p0" ⟨5, 5, 0⟩ = .ok quadClampM1 ⟨1, 1, 0⟩ :=
  ⟨rfl, quadClamp_eq, rfl, rfl,
    c9_idempotent_amended quadRegLit "p0" ⟨5, 5, 0⟩ quadClampM1 ⟨1, 1, 0⟩ quadPoint0
      quadClampP1 rfl quadClamp_eq rfl (Or.inl rfl)⟩

/-- C10: `dispose` on the built quad mesh with one registered point empties the
vertex, edge and face tables, but the claim fails on the rest: the `points`
table is left untouched (the registered point is still present), `Face.dispose`
never releases `ec` (it calls `eb.dispose()` twice instead — source lines
311-313), and a subsequent `move` on the surviving point id does not fail fast
by design but crashes on the dangling face reference (modelled as `crash`, the
source's `TypeError`). -/
theorem c10_dispose_bug :
    (Navmesh.dispose quadReg).verticies = [] ∧
    (Navmesh.dispose quadReg).edges = [] ∧
    (Navmesh.dispose quadReg).faces = [] ∧
    (Navmesh.dispose quadReg).points = quadReg.points ∧
    (findA (Navmesh.dispose quadReg).points "p0").isSome ∧
    (∀ kf ∈ quadReg.faces, kf.2.ec ∉ Face.disposeEdgeCalls kf.2) ∧
    Navmesh.move (Navmesh.dispose quadReg) "p0" ⟨0, 0, 0⟩ = .crash := by
  refine ⟨rfl, rfl, rfl, rfl, ?_, ?_, ?_⟩
  · rw [quadReg_eq]
    decide
  · rw [quadReg_eq]
    decide
  · rw [quadReg_eq]
    decide
